import Mathlib

/-!
Verification of the CursedWidgets interaction state machines.

This file shallowly embeds the widget logic of the repository
(`cursedwidgets/widgets/text_box.py`, `menu.py`, `input_field.py`,
`cursedwidgets/core/string_painter.py`, `widget_manager.py`) in Lean.
Python strings are modelled as lists of code points (`List Int`), Python
integers as `Int`, and Python list/slice primitives by explicit helpers
with Python's clamping and negative-index semantics.  Operations that can
raise `IndexError` in Python return `Option` (with `none` for the raise).
-/

namespace CursedWidgets

/-- A Python string, as its sequence of code points. -/
abbrev Str := List Int

/-- Resolve a Python sequence index for a slice endpoint of a sequence of
length `n`: negative indices count from the end, and the result is clamped
into `[0, n]`. -/
def pyIdx (n : Nat) (i : Int) : Nat :=
  if i < 0 then ((n : Int) + i).toNat else min i.toNat n

/-- Python slice `l[a:b]` (step 1), with clamping and negative indices. -/
def pySlice (l : List α) (a b : Int) : List α :=
  (l.drop (pyIdx l.length a)).take (pyIdx l.length b - pyIdx l.length a)

/-- Resolve a Python subscript index `l[i]`: `none` means `IndexError`. -/
def pyResolve? (n : Nat) (i : Int) : Option Nat :=
  if 0 ≤ i then (if i < (n : Int) then some i.toNat else none)
  else (if 0 ≤ (n : Int) + i then some ((n : Int) + i).toNat else none)

/-- Python `l[i]` (reading); `none` means `IndexError`. -/
def pyGet? (l : List α) (i : Int) : Option α :=
  (pyResolve? l.length i).bind l.get?

/-- Python `l[i] = a`; `none` means `IndexError`. -/
def pySet? (l : List α) (i : Int) (a : α) : Option (List α) :=
  (pyResolve? l.length i).map (l.set · a)

/-- `pySet?` for call sites where the index is already known to be valid
(the Python code indexed the same position just before); out of range it
returns the list unchanged. -/
def pySetD (l : List α) (i : Int) (a : α) : List α :=
  (pySet? l i a).getD l

/-- `utils.is_key_printable`: ASCII 32..126 plus the fixed accented-Latin
set `"ñÑáéíóúÁÉÍÓÚ"` (code points 241, 209, 225, 233, 237, 243, 250, 193,
201, 205, 211, 218). -/
def isKeyPrintable (key : Int) : Bool :=
  (32 ≤ key && key ≤ 126) ||
    [(241 : Int), 209, 225, 233, 237, 243, 250, 193, 201, 205, 211, 218].contains key

/-! Key codes: `curses.KEY_UP = 259`, `KEY_DOWN = 258`, `KEY_LEFT = 260`,
`KEY_RIGHT = 261`, `KEY_BACKSPACE = 263`, `SPECIAL_KEYS.ESCAPE = 27`,
`ord("\n") = 10`, `ord("\t") = 9`. -/

def KEY_UP : Int := 259
def KEY_DOWN : Int := 258
def KEY_LEFT : Int := 260
def KEY_RIGHT : Int := 261
def KEY_BACKSPACE : Int := 263
def KEY_ESCAPE : Int := 27
def KEY_ENTER : Int := 10
def KEY_TAB : Int := 9

/-! ## TextBox (`cursedwidgets/widgets/text_box.py`) -/

/-- The mutable state of a `TextBox`.  `width` is the (sub-)window width,
`boxWidth = width - 2` and `boxHeight = height - 2` the interior sizes;
`cursorX`/`cursorY` are 1-based positions relative to the sub-window and
`firstLineIdx` the scroll offset.  The parent window is assumed wide
enough that `_create_window` keeps the requested width. -/
structure TB where
  width : Int
  boxWidth : Int
  boxHeight : Int
  lines : List Str
  editKey : Option Int
  cursorX : Int
  cursorY : Int
  firstLineIdx : Int
  edited : Bool
  editable : Bool
deriving DecidableEq, Repr

/-- `TextBox._split_text`: `n_lines = (len(text) + box_width + 1) // box_width`
(Python floor division = `Int.fdiv`; a zero `box_width` raises in Python
and lies outside every theorem's hypotheses), then fixed-width slices
`text[i*box_width : (i+1)*box_width]`, with `[""]` for an empty result. -/
def splitText (boxWidth : Int) (text : Str) : List Str :=
  let nLines : Int := ((text.length : Int) + boxWidth + 1).fdiv boxWidth
  let lines := (List.range nLines.toNat).map
    (fun (i : Nat) => pySlice text ((i : Int) * boxWidth) (((i : Int) + 1) * boxWidth))
  if lines = [] then [[]] else lines

/-- `TextBox.__init__` (construction): lines are the split of the initial
text, the cursor starts at `(1, 1)` with scroll offset 0, and the widget
is editable iff no `edit_key` was given. -/
def mkTextBox (height width : Int) (text : Str) (editKey : Option Int) : TB :=
  { width := width
    boxWidth := width - 2
    boxHeight := height - 2
    lines := splitText (width - 2) text
    editKey := editKey
    cursorX := 1
    cursorY := 1
    firstLineIdx := 0
    edited := false
    editable := editKey.isNone }

/-- `TextBox._recompute_lines`: rejoin all lines and re-split at the box
width. -/
def recompute (s : TB) : TB :=
  { s with lines := splitText s.boxWidth s.lines.flatten }

/-- `TextBox._is_last_line`. -/
def isLastLine (s : TB) : Bool :=
  s.firstLineIdx + s.cursorY = (s.lines.length : Int)

/-- `TextBox._key_up_callback`. -/
def keyUp (s : TB) : TB :=
  let s :=
    if s.cursorY = 1 ∧ 0 < s.firstLineIdx then
      { s with firstLineIdx := s.firstLineIdx - 1, edited := true }
    else s
  { s with cursorY := max 1 (s.cursorY - 1) }

/-- The cursor move at the end of `TextBox._key_down_callback`. -/
def keyDownMove (s : TB) : TB :=
  let s :=
    if s.cursorY = s.boxHeight ∧ ¬(isLastLine s = true) then
      { s with firstLineIdx := s.firstLineIdx + 1, edited := true }
    else s
  { s with cursorY := min s.boxHeight (s.cursorY + 1) }

/-- `TextBox._key_down_callback`; `len(self.lines[-1])` is only evaluated
when the first conjunct of the guard holds (Python `and` short-circuits). -/
def keyDown (s : TB) : Option TB :=
  if (s.lines.length : Int) = 1 then some s
  else if s.firstLineIdx + s.cursorY = (s.lines.length : Int) - 1 then
    match pyGet? s.lines (-1) with
    | none => none
    | some lastLine =>
      if (lastLine.length : Int) < s.cursorX - 1 then some s else some (keyDownMove s)
  else some (keyDownMove s)

/-- `TextBox._key_left_callback`. -/
def keyLeft (s : TB) : TB :=
  if s.cursorX = 1 ∧ s.cursorY = 1 ∧ s.firstLineIdx = 0 then s
  else if s.cursorX = 1 ∧ s.cursorY = 1 then
    { s with firstLineIdx := s.firstLineIdx - 1, edited := true, cursorX := s.boxWidth }
  else if s.cursorX = 1 then
    { s with cursorX := s.boxWidth, cursorY := s.cursorY - 1 }
  else
    { s with cursorX := s.cursorX - 1 }

/-- The cursor move at the end of `TextBox._key_right_callback`. -/
def keyRightMove (s : TB) : TB :=
  if s.cursorX = s.boxWidth ∧ s.cursorY = s.boxHeight then
    { s with firstLineIdx := s.firstLineIdx + 1, edited := true, cursorX := 1 }
  else if s.cursorX = s.boxWidth then
    { s with cursorX := 1, cursorY := s.cursorY + 1 }
  else
    { s with cursorX := s.cursorX + 1 }

/-- `TextBox._key_right_callback`; the end-of-text guard only reads
`self.lines[-1]` when `_is_last_line()` holds (short-circuit). -/
def keyRight (s : TB) : Option TB :=
  if isLastLine s then
    match pyGet? s.lines (-1) with
    | none => none
    | some lastLine =>
      if s.cursorX - 1 = (lastLine.length : Int) then some s else some (keyRightMove s)
  else some (keyRightMove s)

/-- `TextBox._key_esc_callback`. -/
def keyEsc (s : TB) : TB :=
  if s.editKey.isSome then { s with editable := false } else s

/-- `TextBox._check_editable_flag`: when not editable, sets the flag to
whether the char equals the edit key and reports `false` (the key is
consumed); when editable, reports `true`. -/
def checkEditableFlag (s : TB) (c : Int) : TB × Bool :=
  if s.editable then (s, true)
  else ({ s with editable := s.editKey == some c }, false)

/-- `TextBox._add_char`: insert `c` at `cursor_x - 1` in the absolute line,
advance the cursor (wrapping / scrolling at the box edges), then reflow. -/
def addChar (s : TB) (c : Int) : Option TB :=
  match checkEditableFlag s c with
  | (s1, false) => some s1
  | (s1, true) =>
    let lineIdx := s1.firstLineIdx + s1.cursorY - 1
    match pyGet? s1.lines lineIdx with
    | none => none
    | some line =>
      let newLine :=
        pySlice line 0 (s1.cursorX - 1) ++ c :: pySlice line (s1.cursorX - 1) (line.length : Int)
      let s2 := { s1 with lines := pySetD s1.lines lineIdx newLine }
      let s3 :=
        if s2.cursorX < s2.boxWidth then { s2 with cursorX := s2.cursorX + 1 }
        else if s2.cursorY < s2.boxHeight then { s2 with cursorX := 1, cursorY := s2.cursorY + 1 }
        else { s2 with firstLineIdx := s2.firstLineIdx + 1, cursorX := 1 }
      some { recompute s3 with edited := true }

/-- `TextBox._remove_char`: backspace.  Note the no-op guard tests only
`cursor_x == 1 and cursor_y == 1`, and the merge branch sets
`cursor_x = self.width` (the full window width, not `box_width`). -/
def removeChar (s : TB) : Option TB :=
  if ¬(s.editable = true) then some s
  else if s.cursorX = 1 ∧ s.cursorY = 1 then some s
  else if 1 < s.cursorX then
    match pyGet? s.lines (s.firstLineIdx + s.cursorY - 1) with
    | none => none
    | some line =>
      some { recompute { s with
          lines := pySetD s.lines (s.firstLineIdx + s.cursorY - 1)
            (pySlice line 0 (s.cursorX - 2) ++ pySlice line (s.cursorX - 1) (line.length : Int)),
          cursorX := s.cursorX - 1 } with edited := true }
  else if s.cursorX = 1 then
    match pyGet? s.lines (s.firstLineIdx + s.cursorY - 2) with
    | none => none
    | some line =>
      some { recompute { s with
          lines := pySetD s.lines (s.firstLineIdx + s.cursorY - 2) (pySlice line 0 (-1)),
          cursorX := s.width, cursorY := s.cursorY - 1 } with edited := true }
  else
    some { recompute s with edited := true }

/-- `TextBox.handle_input`: dispatch on the registered key callbacks, else
insert printable characters; always returns `None` as selection. -/
def handleInput (s : TB) (key : Int) : Option TB :=
  if key = KEY_UP then some (keyUp s)
  else if key = KEY_DOWN then keyDown s
  else if key = KEY_LEFT then some (keyLeft s)
  else if key = KEY_RIGHT then keyRight s
  else if key = KEY_BACKSPACE then removeChar s
  else if key = KEY_ESCAPE then some (keyEsc s)
  else if isKeyPrintable key then addChar s key
  else some s

/-- Feed a list of keys to a `TextBox`, stopping at a raised exception. -/
def runTB (s : TB) (keys : List Int) : Option TB :=
  keys.foldlM handleInput s

/-- States of a `TextBox` reachable from `s0` by `handle_input` calls that
complete normally. -/
inductive ReachTB (s0 : TB) : TB → Prop
  | init : ReachTB s0 s0
  | step {s s' : TB} (k : Int) : ReachTB s0 s → handleInput s k = some s' → ReachTB s0 s'

/-! ## MenuSelector (`cursedwidgets/widgets/menu.py`) -/

/-- The mutable state of a `MenuSelector`.  `horizontal` encodes
`OrientationOptions.HORIZONTAL`; `firstOptionIdx` is the vertical scroll
offset.  A fresh selector has `selected = 0` and `firstOptionIdx = 0`. -/
structure Menu where
  options : List Str
  height : Int
  horizontal : Bool
  selected : Int
  firstOptionIdx : Int
deriving DecidableEq, Repr

/-- `MenuSelector.__init__`. -/
def mkMenu (options : List Str) (height : Int) (horizontal : Bool) : Menu :=
  { options := options, height := height, horizontal := horizontal,
    selected := 0, firstOptionIdx := 0 }

/-- `MenuSelector._handle_key_up`. -/
def menuKeyUp (m : Menu) : Menu :=
  if ¬(m.horizontal = true) ∧ 0 < m.selected then
    let m := { m with selected := m.selected - 1 }
    if m.selected < m.firstOptionIdx then { m with firstOptionIdx := m.selected } else m
  else m

/-- `MenuSelector._handle_key_down`; note `last_option_idx` is
`min(first_option_idx + height - 1, len(options))` in the source. -/
def menuKeyDown (m : Menu) : Menu :=
  let maxIdx := (m.options.length : Int) - 1
  if ¬(m.horizontal = true) ∧ m.selected < maxIdx then
    let m := { m with selected := m.selected + 1 }
    let lastOptionIdx := min (m.firstOptionIdx + m.height - 1) (m.options.length : Int)
    if lastOptionIdx < m.selected then { m with firstOptionIdx := m.firstOptionIdx + 1 } else m
  else m

/-- `MenuSelector.handle_input`: arrows move the selection, Enter returns
the selected index as the terminal selection. -/
def menuHandleInput (m : Menu) (key : Int) : Menu × Option Int :=
  let maxIdx := (m.options.length : Int) - 1
  if key = KEY_UP then (menuKeyUp m, none)
  else if key = KEY_DOWN then (menuKeyDown m, none)
  else if key = KEY_LEFT ∧ m.horizontal = true ∧ 0 < m.selected then
    ({ m with selected := m.selected - 1 }, none)
  else if key = KEY_RIGHT ∧ m.horizontal = true ∧ m.selected < maxIdx then
    ({ m with selected := m.selected + 1 }, none)
  else if key = KEY_ENTER then (m, some m.selected)
  else (m, none)

/-- States of a `MenuSelector` reachable from `m0` by `handle_input` calls. -/
inductive ReachMenu (m0 : Menu) : Menu → Prop
  | init : ReachMenu m0 m0
  | step {m : Menu} (k : Int) : ReachMenu m0 m → ReachMenu m0 (menuHandleInput m k).1

/-! ## InputField (`cursedwidgets/widgets/input_field.py`) -/

/-- The mutable state of an `InputField`: `text` is the displayed buffer
(mask characters if a password field), `value` the true value, and
`maxLength` the bound computed by `_create_window`. -/
structure Field where
  maxLength : Int
  isPassword : Bool
  text : Str
  value : Str
deriving DecidableEq, Repr

/-- `InputField.__init__` followed by `_create_window`: the sub-window
width is `min(max_length + len(label) + spacing + 1, parent_width)`, and
`max_length` is re-derived from it and clamped to be non-negative. -/
def mkField (parentWidth labelLen spacing maxLength0 : Int) (isPassword : Bool) : Field :=
  let winWidth := min (maxLength0 + labelLen + spacing + 1) parentWidth
  let m := winWidth - labelLen - spacing - 1
  { maxLength := if m < 0 then 0 else m, isPassword := isPassword, text := [], value := [] }

/-- `InputField.handle_input`: printable keys are appended to both buffers
while `len(text) < max_length` (a `"*"`, code 42, is shown for password
fields); Backspace truncates both buffers. -/
def fieldHandleInput (f : Field) (key : Int) : Field :=
  if isKeyPrintable key ∧ (f.text.length : Int) < f.maxLength then
    { f with text := f.text ++ [if f.isPassword then 42 else key],
             value := f.value ++ [key] }
  else if key = KEY_BACKSPACE then
    { f with text := pySlice f.text 0 (-1), value := pySlice f.value 0 (-1) }
  else f

/-- States of an `InputField` reachable from `f0` by `handle_input` calls. -/
inductive ReachField (f0 : Field) : Field → Prop
  | init : ReachField f0 f0
  | step {f : Field} (k : Int) : ReachField f0 f → ReachField f0 (fieldHandleInput f k)

/-! ## String painter (`cursedwidgets/core/string_painter.py`) -/

/-- Alignment policy (`constants.AlignmentOptions`). -/
inductive Align
  | left | center | right | manual
deriving DecidableEq, Repr

/-- One `window.addstr(row, col, segment)` call, as a recorded paint
event (the optional attribute does not affect geometry and is dropped). -/
structure PaintEvent where
  row : Int
  col : Int
  seg : Str
deriving DecidableEq, Repr

/-- `add_str_align` on a window of size `rows × cols`: the one `addstr`
call it issues.  `left` paints at column 1, `center` at
`(cols - len(s)) // 2`, `right` at `cols - len(s) - 1`, `manual` at the
caller's column. -/
def addStrAlign (cols line col : Int) (s : Str) (align : Align) : PaintEvent :=
  match align with
  | .left => { row := line, col := 1, seg := s }
  | .center => { row := line, col := (cols - (s.length : Int)).fdiv 2, seg := s }
  | .right => { row := line, col := cols - (s.length : Int) - 1, seg := s }
  | .manual => { row := line, col := col, seg := s }

/-- The `while` loop of `add_str_no_overflows`.  The `fuel` argument is
`extraLines.toNat` at entry and strictly dominates the remaining loop
iterations (each iteration requires `0 < extraLines` and decrements it),
so the recursion is structural and semantics-preserving. -/
def paintLoop (rows cols availableCols col : Int) (align : Align) :
    Nat → Str → Int → Int → List PaintEvent × Int
  | 0, _, line, _ => ([], line)
  | fuel + 1, s, line, extraLines =>
    if availableCols < (s.length : Int) ∧ 0 < extraLines then
      if rows - extraLines ≤ line + 1 then ([], line)
      else
        let s' := pySlice s availableCols (s.length : Int)
        let ev := addStrAlign cols (line + 1) col (pySlice s' 0 availableCols) align
        let (evs, line') := paintLoop rows cols availableCols col align fuel s' (line + 1) (extraLines - 1)
        (ev :: evs, line')
    else ([], line)

/-- `add_str_no_overflows` on a window of size `rows × cols`: the list of
paint events it issues and the returned next free row.  The available
width is `cols - 2`, less the caller's column for `manual` alignment. -/
def addStrNoOverflows (rows cols line col : Int) (s : Str) (extraLines : Int)
    (align : Align) : List PaintEvent × Int :=
  let availableCols := cols - 2 - (if align = Align.manual then col else 0)
  let ev0 := addStrAlign cols line col (pySlice s 0 availableCols) align
  let (evs, line') := paintLoop rows cols availableCols col align extraLines.toNat s line extraLines
  (ev0 :: evs, line' + 1)

/-! ## WidgetManager (`cursedwidgets/core/widget_manager.py`) -/

/-- A registered widget: one of the three `SelectableWidget` variants. -/
inductive Widget
  | field : Field → Widget
  | menu : Menu → Widget
  | text : TB → Widget
deriving DecidableEq

/-- Dispatch one key to a widget: the updated widget and the selection it
returns.  `InputField.handle_input` and `TextBox.handle_input` both end
in `return None`, so only a menu can report a selection; a `TextBox`
exception propagates as `none`. -/
def widgetHandle : Widget → Int → Option (Widget × Option Int)
  | .field f, k => some (.field (fieldHandleInput f k), none)
  | .menu m, k => some (.menu (menuHandleInput m k).1, (menuHandleInput m k).2)
  | .text t, k => (handleInput t k).map (fun t' => (.text t', none))

/-- The state of a `WidgetManager`: the widget list and the index of the
active widget. -/
structure Mgr where
  widgets : List Widget
  active : Int
deriving DecidableEq

/-- `WidgetManager.run`, driven by a finite key list: Tab rotates the
active index modulo the widget count (Python `%`, i.e. `Int.emod`, which
raises on an empty list), any other key is dispatched to the active
widget, and the loop returns `(active_selector, result)` as soon as the
dispatch reports a selection.  `none` means the key list was exhausted or
an exception was raised. -/
def runMgr : Mgr → List Int → Option (Int × Int)
  | _, [] => none
  | c, k :: ks =>
    if k = KEY_TAB then
      if (c.widgets.length : Int) = 0 then none
      else runMgr { c with active := (c.active + 1) % (c.widgets.length : Int) } ks
    else
      match pyGet? c.widgets c.active with
      | none => none
      | some w =>
        match widgetHandle w k with
        | none => none
        | some (w', r) =>
          match r with
          | some v => some (c.active, v)
          | none => runMgr { c with widgets := pySetD c.widgets c.active w' } ks

/-- One non-terminating iteration of the `run` loop, as a relation on
(manager state, remaining keys) configurations. -/
inductive MgrStep : Mgr × List Int → Mgr × List Int → Prop
  | tab {c : Mgr} {ks : List Int} (h : (c.widgets.length : Int) ≠ 0) :
      MgrStep (c, KEY_TAB :: ks) ({ c with active := (c.active + 1) % (c.widgets.length : Int) }, ks)
  | dispatch {c : Mgr} {k : Int} {ks : List Int} {w w' : Widget}
      (hk : k ≠ KEY_TAB) (hw : pyGet? c.widgets c.active = some w)
      (hh : widgetHandle w k = some (w', none)) :
      MgrStep (c, k :: ks) ({ c with widgets := pySetD c.widgets c.active w' }, ks)

/-! ## Reflow preserves content -/

/-- Dropping at most the length is the same as dropping the clamped count. -/
theorem drop_min_length (l : List α) (k : Nat) : l.drop (min k l.length) = l.drop k := by
  rcases le_total k l.length with h | h
  · rw [min_eq_left h]
  · rw [min_eq_right h, List.drop_eq_nil_of_le h, List.drop_eq_nil_of_le le_rfl]

/-- The `i`-th fixed-width slice taken by `_split_text`, as drop-and-take. -/
theorem pySlice_chunk (t : List α) (i : Nat) (w : Int) (hw : 0 ≤ w) :
    pySlice t ((i : Int) * w) (((i : Int) + 1) * w) = (t.drop (i * w.toNat)).take w.toNat := by
  have hiw : ((i : Int) * w) = ((i * w.toNat : Nat) : Int) := by
    push_cast [Int.toNat_of_nonneg hw]; ring
  have hiw' : (((i : Int) + 1) * w) = (((i + 1) * w.toNat : Nat) : Int) := by
    push_cast [Int.toNat_of_nonneg hw]; ring
  rw [pySlice, pyIdx, pyIdx, hiw, hiw']
  have h1 : ¬(((i * w.toNat : Nat) : Int) < 0) := by omega
  have h2 : ¬((((i + 1) * w.toNat : Nat) : Int) < 0) := by omega
  rw [if_neg h1, if_neg h2, Int.toNat_natCast, Int.toNat_natCast, drop_min_length,
    List.take_eq_take]
  have h3 : (t.drop (i * w.toNat)).length = t.length - i * w.toNat := List.length_drop _ _
  have h4 : (i + 1) * w.toNat = i * w.toNat + w.toNat := by ring
  omega

/-- Concatenating `n` successive `w`-sized chunks recovers a list of
length at most `n * w`. -/
theorem flatten_chunks (w : Nat) : ∀ (n : Nat) (t : List α), t.length ≤ n * w →
    ((List.range n).map fun i => (t.drop (i * w)).take w).flatten = t := by
  intro n
  induction n with
  | zero =>
    intro t ht
    simp only [Nat.zero_mul, Nat.le_zero, List.length_eq_zero] at ht
    simp [ht]
  | succ n ih =>
    intro t ht
    rw [List.range_succ_eq_map, List.map_cons, List.map_map, List.flatten_cons]
    have hmap : (List.map ((fun i => (t.drop (i * w)).take w) ∘ Nat.succ) (List.range n)) =
        List.map (fun i => ((t.drop w).drop (i * w)).take w) (List.range n) := by
      refine List.map_congr_left fun i _ => ?_
      simp only [Function.comp_apply, List.drop_drop]
      congr 2
      rw [Nat.succ_mul]
      omega
    have hlen : (t.drop w).length ≤ n * w := by
      simp only [List.length_drop]
      have : (n + 1) * w = n * w + w := by rw [Nat.succ_mul]
      omega
    rw [hmap, ih (t.drop w) hlen]
    simp [List.take_append_drop]

/-- `join(reflow(T, W)) == T` for any positive interior width. -/
theorem join_splitText (w : Int) (t : Str) (hw : 1 ≤ w) :
    (splitText w t).flatten = t := by
  unfold splitText
  have hmod := Int.fmod_add_fdiv ((t.length : Int) + w + 1) w
  have hmn : 0 ≤ ((t.length : Int) + w + 1).fmod w := Int.fmod_nonneg (by omega) (by omega)
  have hml : ((t.length : Int) + w + 1).fmod w < w := Int.fmod_lt_of_pos _ (by omega)
  set q : Int := ((t.length : Int) + w + 1).fdiv w with hq
  have hqw : (t.length : Int) + 2 ≤ w * q := by omega
  have hq1 : 1 ≤ q := by nlinarith
  have hcast : ((q.toNat * w.toNat : Nat) : Int) = w * q := by
    push_cast [Int.toNat_of_nonneg (by omega : (0:Int) ≤ q),
      Int.toNat_of_nonneg (by omega : (0:Int) ≤ w)]
    ring
  have hlen : t.length ≤ q.toNat * w.toNat := by omega
  have hchunks : (List.range q.toNat).map
        (fun (i : Nat) => pySlice t ((i : Int) * w) (((i : Int) + 1) * w)) =
      (List.range q.toNat).map (fun i => (t.drop (i * w.toNat)).take w.toNat) :=
    List.map_congr_left fun i _ => pySlice_chunk t i w (by omega)
  have hne : (List.range q.toNat).map
        (fun (i : Nat) => pySlice t ((i : Int) * w) (((i : Int) + 1) * w)) ≠ [] := by
    simp only [ne_eq, List.map_eq_nil_iff, List.range_eq_nil]
    omega
  simp only [if_neg hne]
  rw [hchunks]
  exact flatten_chunks w.toNat q.toNat t hlen

/-- C2: for every text `T` and every box width `W > 0`, joining the line
list produced by `TextBox` reflow (`_split_text`, splitting `T` into
fixed-width segments of length `W`) yields exactly `T`: reflow changes
only line boundaries, never content. -/
theorem C2_reflow_invariance (w : Int) (t : Str) (hw : 0 < w) :
    (splitText w t).flatten = t :=
  join_splitText w t hw

/-- Witness for C2 at `W = 5`, `T = "HI"`. -/
theorem C2_reflow_invariance_witness :
    (0 : Int) < 5 ∧ (splitText 5 [72, 73]).flatten = [72, 73] :=
  ⟨by decide, C2_reflow_invariance 5 [72, 73] (by decide)⟩

/-! ## Scenario B and the printable-key dispatch -/

/-- For a plain ASCII printable key (codes 32..126, none of which is a
registered callback code), `handle_input` dispatches to `_add_char`. -/
theorem handleInput_printable (s : TB) (k : Int) (h1 : 32 ≤ k) (h2 : k ≤ 126) :
    handleInput s k = addChar s k := by
  unfold handleInput KEY_UP KEY_DOWN KEY_LEFT KEY_RIGHT KEY_BACKSPACE KEY_ESCAPE
  have hp : isKeyPrintable k = true := by
    simp [isKeyPrintable]
    omega
  rw [if_neg (by omega), if_neg (by omega), if_neg (by omega), if_neg (by omega),
    if_neg (by omega), if_neg (by omega), if_pos hp]

/-- `_add_char` in an editable state whose cursor is not at the box's
right edge: plain insert, cursor one column right, then reflow. -/
theorem addChar_no_wrap (s : TB) (c : Int) (he : s.editable = true) (hx : s.cursorX < s.boxWidth) :
    addChar s c = (pyGet? s.lines (s.firstLineIdx + s.cursorY - 1)).map (fun line =>
      { recompute { s with
          lines := pySetD s.lines (s.firstLineIdx + s.cursorY - 1)
            (pySlice line 0 (s.cursorX - 1) ++ c :: pySlice line (s.cursorX - 1) (line.length : Int)),
          cursorX := s.cursorX + 1 } with edited := true }) := by
  simp only [addChar, checkEditableFlag, he, if_true, ite_true]
  rcases hg : pyGet? s.lines (s.firstLineIdx + s.cursorY - 1) with _ | line
  · rfl
  · simp only [Option.map_some']
    rw [if_pos hx]

/-- `_add_char` at the right edge but above the bottom row: insert, then
the cursor wraps to column 1 of the next row. -/
theorem addChar_wrap_row (s : TB) (c : Int) (he : s.editable = true)
    (hx : ¬ s.cursorX < s.boxWidth) (hy : s.cursorY < s.boxHeight) :
    addChar s c = (pyGet? s.lines (s.firstLineIdx + s.cursorY - 1)).map (fun line =>
      { recompute { s with
          lines := pySetD s.lines (s.firstLineIdx + s.cursorY - 1)
            (pySlice line 0 (s.cursorX - 1) ++ c :: pySlice line (s.cursorX - 1) (line.length : Int)),
          cursorX := 1, cursorY := s.cursorY + 1 } with edited := true }) := by
  simp only [addChar, checkEditableFlag, he, if_true, ite_true]
  rcases hg : pyGet? s.lines (s.firstLineIdx + s.cursorY - 1) with _ | line
  · rfl
  · simp only [Option.map_some']
    rw [if_neg hx, if_pos hy]

/-- `runTB` unfolds one key at a time. -/
theorem runTB_cons (s : TB) (k : Int) (ks : List Int) :
    runTB s (k :: ks) = (handleInput s k).bind (fun s' => runTB s' ks) := rfl

/-- A successful `handle_input` step advances `runTB`. -/
theorem runTB_step {s s' : TB} {k : Int} (ks : List Int) (h : handleInput s k = some s') :
    runTB s (k :: ks) = runTB s' ks := by
  rw [runTB_cons, h]
  rfl

/-- The `TextBox` states traversed in the Scenario B trace: window width 7
(interior width 5), window height `H`, no edit key. -/
def sbState (H : Int) (lines : List Str) (cx cy fl : Int) (ed : Bool) : TB :=
  { width := 7, boxWidth := 5, boxHeight := H - 2, lines := lines, editKey := none,
    cursorX := cx, cursorY := cy, firstLineIdx := fl, edited := ed, editable := true }

/-- The symbolic Scenario B trace for window height `H ≥ 5` (interior box
height at least 3): typing `"HELLOWORLD"` into an empty width-5 box. -/
theorem scenarioB_tall (H : Int) (hH : 5 ≤ H) :
    runTB (mkTextBox H 7 [] none) [72, 69, 76, 76, 79, 87, 79, 82, 76, 68] =
      some (sbState H [[72, 69, 76, 76, 79], [87, 79, 82, 76, 68], []] 1 3 0 true) := by
  have e0 : mkTextBox H 7 [] none = sbState H [[]] 1 1 0 false := rfl
  have e1 : handleInput (sbState H [[]] 1 1 0 false) 72 =
      some (sbState H [[72]] 2 1 0 true) := by
    rw [handleInput_printable _ _ (by norm_num) (by norm_num), addChar_no_wrap _ _ rfl (by simp [sbState])]
    simp only [sbState, recompute]
    rw [show pyGet? ([[]] : List Str) ((0:Int) + 1 - 1) = some [] from rfl]
    simp only [Option.map_some']
    rfl
  have e2 : handleInput (sbState H [[72]] 2 1 0 true) 69 =
      some (sbState H [[72, 69]] 3 1 0 true) := by
    rw [handleInput_printable _ _ (by norm_num) (by norm_num), addChar_no_wrap _ _ rfl (by simp [sbState])]
    simp only [sbState, recompute]
    rw [show pyGet? ([[72]] : List Str) ((0:Int) + 1 - 1) = some [72] from rfl]
    simp only [Option.map_some']
    rfl
  have e3 : handleInput (sbState H [[72, 69]] 3 1 0 true) 76 =
      some (sbState H [[72, 69, 76]] 4 1 0 true) := by
    rw [handleInput_printable _ _ (by norm_num) (by norm_num), addChar_no_wrap _ _ rfl (by simp [sbState])]
    simp only [sbState, recompute]
    rw [show pyGet? ([[72, 69]] : List Str) ((0:Int) + 1 - 1) = some [72, 69] from rfl]
    simp only [Option.map_some']
    rfl
  have e4 : handleInput (sbState H [[72, 69, 76]] 4 1 0 true) 76 =
      some (sbState H [[72, 69, 76, 76], []] 5 1 0 true) := by
    rw [handleInput_printable _ _ (by norm_num) (by norm_num), addChar_no_wrap _ _ rfl (by simp [sbState])]
    simp only [sbState, recompute]
    rw [show pyGet? ([[72, 69, 76]] : List Str) ((0:Int) + 1 - 1) = some [72, 69, 76] from rfl]
    simp only [Option.map_some']
    rfl
  have e5 : handleInput (sbState H [[72, 69, 76, 76], []] 5 1 0 true) 79 =
      some (sbState H [[72, 69, 76, 76, 79], []] 1 2 0 true) := by
    rw [handleInput_printable _ _ (by norm_num) (by norm_num), addChar_wrap_row _ _ rfl (by simp [sbState]) (by simp [sbState]; omega)]
    simp only [sbState, recompute]
    rw [show pyGet? ([[72, 69, 76, 76], []] : List Str) ((0:Int) + 1 - 1) = some [72, 69, 76, 76] from rfl]
    simp only [Option.map_some']
    rfl
  have e6 : handleInput (sbState H [[72, 69, 76, 76, 79], []] 1 2 0 true) 87 =
      some (sbState H [[72, 69, 76, 76, 79], [87]] 2 2 0 true) := by
    rw [handleInput_printable _ _ (by norm_num) (by norm_num), addChar_no_wrap _ _ rfl (by simp [sbState])]
    simp only [sbState, recompute]
    rw [show pyGet? ([[72, 69, 76, 76, 79], []] : List Str) ((0:Int) + 2 - 1) = some [] from rfl]
    simp only [Option.map_some']
    rfl
  have e7 : handleInput (sbState H [[72, 69, 76, 76, 79], [87]] 2 2 0 true) 79 =
      some (sbState H [[72, 69, 76, 76, 79], [87, 79]] 3 2 0 true) := by
    rw [handleInput_printable _ _ (by norm_num) (by norm_num), addChar_no_wrap _ _ rfl (by simp [sbState])]
    simp only [sbState, recompute]
    rw [show pyGet? ([[72, 69, 76, 76, 79], [87]] : List Str) ((0:Int) + 2 - 1) = some [87] from rfl]
    simp only [Option.map_some']
    rfl
  have e8 : handleInput (sbState H [[72, 69, 76, 76, 79], [87, 79]] 3 2 0 true) 82 =
      some (sbState H [[72, 69, 76, 76, 79], [87, 79, 82]] 4 2 0 true) := by
    rw [handleInput_printable _ _ (by norm_num) (by norm_num), addChar_no_wrap _ _ rfl (by simp [sbState])]
    simp only [sbState, recompute]
    rw [show pyGet? ([[72, 69, 76, 76, 79], [87, 79]] : List Str) ((0:Int) + 2 - 1) = some [87, 79] from rfl]
    simp only [Option.map_some']
    rfl
  have e9 : handleInput (sbState H [[72, 69, 76, 76, 79], [87, 79, 82]] 4 2 0 true) 76 =
      some (sbState H [[72, 69, 76, 76, 79], [87, 79, 82, 76], []] 5 2 0 true) := by
    rw [handleInput_printable _ _ (by norm_num) (by norm_num), addChar_no_wrap _ _ rfl (by simp [sbState])]
    simp only [sbState, recompute]
    rw [show pyGet? ([[72, 69, 76, 76, 79], [87, 79, 82]] : List Str) ((0:Int) + 2 - 1) = some [87, 79, 82] from rfl]
    simp only [Option.map_some']
    rfl
  have e10 : handleInput (sbState H [[72, 69, 76, 76, 79], [87, 79, 82, 76], []] 5 2 0 true) 68 =
      some (sbState H [[72, 69, 76, 76, 79], [87, 79, 82, 76, 68], []] 1 3 0 true) := by
    rw [handleInput_printable _ _ (by norm_num) (by norm_num), addChar_wrap_row _ _ rfl (by simp [sbState]) (by simp [sbState]; omega)]
    simp only [sbState, recompute]
    rw [show pyGet? ([[72, 69, 76, 76, 79], [87, 79, 82, 76], []] : List Str) ((0:Int) + 2 - 1) = some [87, 79, 82, 76] from rfl]
    simp only [Option.map_some']
    rfl
  rw [e0, runTB_step _ e1, runTB_step _ e2, runTB_step _ e3, runTB_step _ e4,
    runTB_step _ e5, runTB_step _ e6, runTB_step _ e7, runTB_step _ e8,
    runTB_step _ e9, runTB_step _ e10]
  rfl

/-- C1 fails on the code: with interior box width 5 and interior box
height 2 (window 4 x 7), feeding `"HELLOWORLD"` to an empty `TextBox`
yields the line list `["HELLO", "WORLD", ""]` (an extra empty trailing
line, from the `+ 1` in `_split_text`'s line count) and cursor
`(row = 2, col = 1)` with `firstVisibleLine = 1` - not `["HELLO",
"WORLD"]` with cursor `(row = 2, col = 6)`: `_add_char` wraps the column
eagerly, so column 6 is never reached. -/
theorem C1_counterexample :
    (runTB (mkTextBox 4 7 [] none) [72, 69, 76, 76, 79, 87, 79, 82, 76, 68]).map
        (fun s => (s.lines, s.cursorY, s.cursorX)) =
      some ([[72, 69, 76, 76, 79], [87, 79, 82, 76, 68], []], 2, 1) ∧
    ¬ ((runTB (mkTextBox 4 7 [] none) [72, 69, 76, 76, 79, 87, 79, 82, 76, 68]).map
        (fun s => (s.lines, s.cursorY, s.cursorX)) =
      some ([[72, 69, 76, 76, 79], [87, 79, 82, 76, 68]], 2, 6)) := by
  constructor
  · decide
  · decide

/-- C1 (amended): for a `TextBox` with interior box width 5 and interior
box height at least 2 (window height `H ≥ 4`, width 7), initial text `""`,
feeding the ten characters of `"HELLOWORLD"` produces the line list
`["HELLO", "WORLD", ""]` and cursor column 1; the cursor row is 2 with
`firstVisibleLine = 1` when the box height is exactly 2 (the last
insertion scrolls), and row 3 with `firstVisibleLine = 0` when the box
height is at least 3. -/
theorem C1_amended_scenarioB (H : Int) (hH : 4 ≤ H) :
    ∃ s : TB, runTB (mkTextBox H 7 [] none) [72, 69, 76, 76, 79, 87, 79, 82, 76, 68] = some s ∧
      s.lines = [[72, 69, 76, 76, 79], [87, 79, 82, 76, 68], []] ∧
      s.cursorX = 1 ∧
      ((H = 4 ∧ s.cursorY = 2 ∧ s.firstLineIdx = 1) ∨
       (5 ≤ H ∧ s.cursorY = 3 ∧ s.firstLineIdx = 0)) := by
  rcases eq_or_lt_of_le hH with rfl | h5
  · exact ⟨sbState 4 [[72, 69, 76, 76, 79], [87, 79, 82, 76, 68], []] 1 2 1 true,
      by decide, rfl, rfl, Or.inl ⟨rfl, rfl, rfl⟩⟩
  · exact ⟨sbState H [[72, 69, 76, 76, 79], [87, 79, 82, 76, 68], []] 1 3 0 true,
      scenarioB_tall H (by omega), rfl, rfl, Or.inr ⟨by omega, rfl, rfl⟩⟩

/-- Witness for the amended C1 at window height 7 (box height 5). -/
theorem C1_amended_scenarioB_witness :
    (4 : Int) ≤ 7 ∧
    (∃ s : TB, runTB (mkTextBox 7 7 [] none) [72, 69, 76, 76, 79, 87, 79, 82, 76, 68] = some s ∧
      s.lines = [[72, 69, 76, 76, 79], [87, 79, 82, 76, 68], []] ∧
      s.cursorX = 1 ∧
      (((7:Int) = 4 ∧ s.cursorY = 2 ∧ s.firstLineIdx = 1) ∨
       ((5:Int) ≤ 7 ∧ s.cursorY = 3 ∧ s.firstLineIdx = 0))) :=
  ⟨by decide, C1_amended_scenarioB 7 (by decide)⟩

/-! ## Edit gate (C4) and concrete refutations -/

/-- Every printable key (ASCII 32..126 or the accented set, all within
32..250) misses the callback table, so `handle_input` dispatches it to
`_add_char`. -/
theorem handleInput_isPrintable (s : TB) (k : Int) (hp : isKeyPrintable k = true) :
    handleInput s k = addChar s k := by
  have hb : 32 ≤ k ∧ k ≤ 250 := by
    simp [isKeyPrintable] at hp
    omega
  unfold handleInput KEY_UP KEY_DOWN KEY_LEFT KEY_RIGHT KEY_BACKSPACE KEY_ESCAPE
  rw [if_neg (by omega), if_neg (by omega), if_neg (by omega), if_neg (by omega),
    if_neg (by omega), if_neg (by omega), if_pos hp]

/-- C3 fails on the code: in the editable reachable state obtained by
typing `"HELL"` then Arrow-Right in an empty 4 x 7 `TextBox` (cursor on
the trailing empty line), inserting `"X"` and then sending Backspace
leaves the buffer as `"HELLX"`: reflow moved the inserted character onto
the previous line, and Backspace deletes from the (now empty) cursor
line, removing nothing. -/
theorem C3_counterexample :
    ((runTB (mkTextBox 4 7 [] none) [72, 69, 76, 76, 261]).bind (fun s =>
        (handleInput s 88).bind (fun s1 => (handleInput s1 263).map (fun s2 =>
          (s.editable, s.lines.flatten, s2.lines.flatten))))) =
      some (true, [72, 69, 76, 76], [72, 69, 76, 76, 88]) ∧
    ([72, 69, 76, 76] : Str) ≠ [72, 69, 76, 76, 88] := by
  constructor
  · decide
  · decide

/-- C4 fails on the code: construct a `TextBox` with activation key `"e"`
(code 101).  After `[e, Esc]` the widget is disabled with empty buffer,
but the subsequent keys `[e, x]` re-enable editing and insert `"x"`:
`_check_editable_flag` re-arms on every later occurrence of the
activation key, so Escape is not permanent. -/
theorem C4_counterexample :
    (runTB (mkTextBox 4 7 [] (some 101)) [101, 27]).map
        (fun s => (s.editable, s.lines.flatten)) = some (false, []) ∧
    (runTB (mkTextBox 4 7 [] (some 101)) [101, 27, 101, 120]).map
        (fun s => (s.editable, s.lines.flatten)) = some (true, [120]) := by
  constructor
  · decide
  · decide

/-- C4 (amended): while a `TextBox` with an activation key is
non-editable (in particular right after Escape), Backspace and printable
keys other than the activation key leave the whole state unchanged, but
handling the activation key itself sets `_editable` back to `true` (the
key is consumed, not inserted): the disabling is not permanent. -/
theorem addChar_not_editable (s : TB) (c : Int) (he : s.editable = false) :
    addChar s c = some { s with editable := s.editKey == some c } := by
  simp only [addChar, checkEditableFlag, he, Bool.false_eq_true, if_false, ite_false]

theorem C4_amended (s : TB) (k : Int) (he : s.editable = false) (hk : s.editKey = some k) :
    handleInput s KEY_BACKSPACE = some s ∧
    (∀ c : Int, isKeyPrintable c = true → c ≠ k → handleInput s c = some s) ∧
    (isKeyPrintable k = true → handleInput s k = some { s with editable := true }) := by
  refine ⟨?_, ?_, ?_⟩
  · show removeChar s = some s
    rw [removeChar, if_pos (by rw [he]; decide)]
  · intro c hc hck
    have hbeq : ((s.editKey == some c) : Bool) = false := by
      rw [hk]
      simp only [beq_eq_false_iff_ne, ne_eq, Option.some.injEq]
      exact fun h => absurd h.symm hck
    rw [handleInput_isPrintable s c hc, addChar_not_editable s c he, hbeq]
    rcases s with ⟨w, bw, bh, L, ek, cx, cy, fl, ed, eda⟩
    simp only at he
    subst he
    rfl
  · intro hkp
    have hbeq : ((s.editKey == some k) : Bool) = true := by rw [hk]; simp
    rw [handleInput_isPrintable s k hkp, addChar_not_editable s k he, hbeq]

/-- Witness for the amended C4: an `"e"`-gated box right after Escape. -/
theorem C4_amended_witness :
    (mkTextBox 4 7 [] (some 101)).editable = false ∧
    (mkTextBox 4 7 [] (some 101)).editKey = some 101 ∧
    (handleInput (mkTextBox 4 7 [] (some 101)) KEY_BACKSPACE = some (mkTextBox 4 7 [] (some 101)) ∧
     (∀ c : Int, isKeyPrintable c = true → c ≠ 101 →
        handleInput (mkTextBox 4 7 [] (some 101)) c = some (mkTextBox 4 7 [] (some 101))) ∧
     (isKeyPrintable 101 = true →
        handleInput (mkTextBox 4 7 [] (some 101)) 101 =
          some { mkTextBox 4 7 [] (some 101) with editable := true })) :=
  ⟨by decide, by decide, C4_amended (mkTextBox 4 7 [] (some 101)) 101 (by decide) (by decide)⟩

/-- C5 fails on the code: typing `"HELLO"` into an empty 4 x 7 `TextBox`
(interior 2 x 5) and pressing Backspace reaches a state with
`cursor_x = 7 > box_width = 5`: the merge branch of `_remove_char`
assigns `cursor_x = self.width` instead of `self.box_width`. -/
theorem C5_counterexample :
    (runTB (mkTextBox 4 7 [] none) [72, 69, 76, 76, 79, 263]).map
        (fun s => (s.cursorX, s.boxWidth)) = some (7, 5) ∧
    ¬ ((7 : Int) ≤ 5) := by
  constructor
  · decide
  · decide

/-- C6 fails on the code: typing `"HELLOWORLD"` into an empty 4 x 7
`TextBox` and pressing Arrow-Up reaches the editable state with
`cursor = (1, 1)` and `firstVisibleLine = 1`.  This is not document
start, yet Backspace leaves the entire widget state unchanged: the
no-op guard of `_remove_char` ignores `first_line_idx`. -/
theorem C6_counterexample :
    ((runTB (mkTextBox 4 7 [] none) [72, 69, 76, 76, 79, 87, 79, 82, 76, 68, 259]).map
      (fun s => (s.cursorX, s.cursorY, s.firstLineIdx, s.editable,
        handleInput s 263 == some s))) = some (1, 1, 1, true, true) := by
  decide

/-- Invariant maintained by every `TextBox` state reachable from a
well-formed construction: geometry constants, cursor-row bounds, a
cursor-column lower bound, a non-negative scroll offset, and canonical
(freshly reflowed) lines.  No upper bound on `cursorX` holds (see the C5
counterexample). -/
def TBInv (s : TB) : Prop :=
  s.width = s.boxWidth + 2 ∧ 1 ≤ s.boxWidth ∧ 1 ≤ s.boxHeight ∧
  1 ≤ s.cursorY ∧ s.cursorY ≤ s.boxHeight ∧ 1 ≤ s.cursorX ∧
  0 ≤ s.firstLineIdx ∧ s.lines = splitText s.boxWidth s.lines.flatten

theorem TBInv_keyUp (s : TB) (h : TBInv s) : TBInv (keyUp s) := by
  obtain ⟨h1, h2, h3, h4, h5, h6, h7, h8⟩ := h
  simp only [TBInv, keyUp]
  split_ifs with hc <;> (try simp only) <;>
    exact ⟨h1, h2, h3, by omega, by omega, h6, by omega, h8⟩

theorem TBInv_keyDownMove (s : TB) (h : TBInv s) : TBInv (keyDownMove s) := by
  obtain ⟨h1, h2, h3, h4, h5, h6, h7, h8⟩ := h
  simp only [TBInv, keyDownMove]
  split_ifs with hc <;> (try simp only) <;>
    exact ⟨h1, h2, h3, by omega, by omega, h6, by omega, h8⟩

theorem TBInv_keyDown (s s' : TB) (h : TBInv s) (he : keyDown s = some s') : TBInv s' := by
  unfold keyDown at he
  split_ifs at he with hc1 hc2
  · exact Option.some.inj he ▸ h
  · rcases hg : pyGet? s.lines (-1) with _ | lastLine <;> simp only [hg] at he
    · exact absurd he (by simp)
    · split_ifs at he with hc3
      · exact Option.some.inj he ▸ h
      · exact Option.some.inj he ▸ TBInv_keyDownMove s h
  · exact Option.some.inj he ▸ TBInv_keyDownMove s h

theorem TBInv_keyLeft (s : TB) (h : TBInv s) : TBInv (keyLeft s) := by
  obtain ⟨h1, h2, h3, h4, h5, h6, h7, h8⟩ := h
  simp only [TBInv, keyLeft]
  split_ifs with hc1 hc2 hc3 <;> (try simp only)
  · exact ⟨h1, h2, h3, h4, h5, h6, h7, h8⟩
  · exact ⟨h1, h2, h3, h4, h5, by omega, by omega, h8⟩
  · exact ⟨h1, h2, h3, by omega, by omega, by omega, h7, h8⟩
  · exact ⟨h1, h2, h3, h4, h5, by omega, h7, h8⟩

theorem TBInv_keyRightMove (s : TB) (h : TBInv s) : TBInv (keyRightMove s) := by
  obtain ⟨h1, h2, h3, h4, h5, h6, h7, h8⟩ := h
  simp only [TBInv, keyRightMove]
  split_ifs with hc1 hc2 <;> (try simp only)
  · exact ⟨h1, h2, h3, h4, h5, by omega, by omega, h8⟩
  · exact ⟨h1, h2, h3, by omega, by omega, by omega, h7, h8⟩
  · exact ⟨h1, h2, h3, h4, h5, by omega, h7, h8⟩

theorem TBInv_keyRight (s s' : TB) (h : TBInv s) (he : keyRight s = some s') : TBInv s' := by
  unfold keyRight at he
  split_ifs at he with hc1
  · rcases hg : pyGet? s.lines (-1) with _ | lastLine <;> simp only [hg] at he
    · exact absurd he (by simp)
    · split_ifs at he with hc2
      · exact Option.some.inj he ▸ h
      · exact Option.some.inj he ▸ TBInv_keyRightMove s h
  · exact Option.some.inj he ▸ TBInv_keyRightMove s h

theorem TBInv_keyEsc (s : TB) (h : TBInv s) : TBInv (keyEsc s) := by
  obtain ⟨h1, h2, h3, h4, h5, h6, h7, h8⟩ := h
  simp only [TBInv, keyEsc]
  split_ifs <;> (try simp only) <;> exact ⟨h1, h2, h3, h4, h5, h6, h7, h8⟩

/-- Reflow output is always canonical. -/
theorem splitText_canonical (w : Int) (hw : 1 ≤ w) (t : Str) :
    splitText w t = splitText w (splitText w t).flatten := by
  rw [join_splitText w t hw]

theorem TBInv_addChar (s s' : TB) (c : Int) (h : TBInv s) (he : addChar s c = some s') :
    TBInv s' := by
  obtain ⟨h1, h2, h3, h4, h5, h6, h7, h8⟩ := h
  by_cases hed : s.editable = true
  · simp only [addChar, checkEditableFlag, hed, if_true, ite_true] at he
    rcases hg : pyGet? s.lines (s.firstLineIdx + s.cursorY - 1) with _ | line <;>
      simp only [hg] at he
    · exact absurd he (by simp)
    · split_ifs at he with ha hb <;>
        refine Option.some.inj he ▸ ⟨?_, ?_, ?_, ?_, ?_, ?_, ?_, ?_⟩ <;>
        simp only [recompute] <;>
        first
          | omega
          | exact splitText_canonical s.boxWidth h2 _
  · have hf : s.editable = false := by revert hed; cases s.editable <;> simp
    rw [addChar_not_editable s c hf] at he
    exact Option.some.inj he ▸ ⟨h1, h2, h3, h4, h5, h6, h7, h8⟩

theorem TBInv_removeChar (s s' : TB) (h : TBInv s) (he : removeChar s = some s') :
    TBInv s' := by
  obtain ⟨h1, h2, h3, h4, h5, h6, h7, h8⟩ := h
  unfold removeChar at he
  split_ifs at he with hc1 hc2 hc3 hc4
  · exact Option.some.inj he ▸ ⟨h1, h2, h3, h4, h5, h6, h7, h8⟩
  · rcases hg : pyGet? s.lines (s.firstLineIdx + s.cursorY - 1) with _ | line <;>
      simp only [hg] at he
    · exact absurd he (by simp)
    · refine Option.some.inj he ▸ ⟨?_, ?_, ?_, ?_, ?_, ?_, ?_, ?_⟩ <;>
        simp only [recompute] <;>
        first
          | omega
          | exact splitText_canonical s.boxWidth h2 _
  · rcases hg : pyGet? s.lines (s.firstLineIdx + s.cursorY - 2) with _ | line <;>
      simp only [hg] at he
    · exact absurd he (by simp)
    · refine Option.some.inj he ▸ ⟨?_, ?_, ?_, ?_, ?_, ?_, ?_, ?_⟩ <;>
        simp only [recompute] <;>
        first
          | omega
          | exact splitText_canonical s.boxWidth h2 _
  · exact absurd h6 (by omega)
  · exact Option.some.inj he ▸ ⟨h1, h2, h3, h4, h5, h6, h7, h8⟩

theorem TBInv_handleInput (s s' : TB) (k : Int) (h : TBInv s)
    (he : handleInput s k = some s') : TBInv s' := by
  unfold handleInput at he
  split_ifs at he with k1 k2 k3 k4 k5 k6 k7
  · exact Option.some.inj he ▸ TBInv_keyUp s h
  · exact TBInv_keyDown s s' h he
  · exact Option.some.inj he ▸ TBInv_keyLeft s h
  · exact TBInv_keyRight s s' h he
  · exact TBInv_removeChar s s' h he
  · exact Option.some.inj he ▸ TBInv_keyEsc s h
  · exact TBInv_addChar s s' k h he
  · exact Option.some.inj he ▸ h

/-- Construction establishes the invariant (window at least 3 x 3). -/
theorem TBInv_mk (height width : Int) (t : Str) (ek : Option Int)
    (hh : 3 ≤ height) (hw : 3 ≤ width) : TBInv (mkTextBox height width t ek) := by
  refine ⟨by simp [mkTextBox], by simp [mkTextBox]; omega, by simp [mkTextBox]; omega,
    by simp [mkTextBox], by simp [mkTextBox]; omega, by simp [mkTextBox],
    by simp [mkTextBox], ?_⟩
  show splitText (width - 2) t = splitText _ _
  exact splitText_canonical (width - 2) (by omega) t

/-- Every reachable `TextBox` state satisfies the invariant. -/
theorem tb_invariant {height width : Int} {t : Str} {ek : Option Int} {s : TB}
    (hh : 3 ≤ height) (hw : 3 ≤ width)
    (hr : ReachTB (mkTextBox height width t ek) s) : TBInv s := by
  induction hr with
  | init => exact TBInv_mk height width t ek hh hw
  | step k hprev heq ih => exact TBInv_handleInput _ _ k ih heq

end CursedWidgets

namespace CursedWidgets

/-- Slice endpoints never exceed the sequence length. -/
theorem pyIdx_le (n : Nat) (i : Int) : pyIdx n i ≤ n := by
  unfold pyIdx
  split_ifs <;> omega

/-- Length of a Python slice. -/
theorem length_pySlice (l : List α) (a b : Int) :
    (pySlice l a b).length = pyIdx l.length b - pyIdx l.length a := by
  unfold pySlice
  rw [List.length_take, List.length_drop]
  have ha := pyIdx_le l.length a
  have hb := pyIdx_le l.length b
  omega

/-- Replacing one line changes the flattened length by the line-length
difference. -/
theorem flatten_length_set : ∀ (l : List (List α)) (j : Nat) (x line : List α),
    l.get? j = some line →
    ((l.set j x).flatten).length + line.length = l.flatten.length + x.length := by
  intro l
  induction l with
  | nil =>
    intro j x line h
    simp at h
  | cons a t ih =>
    intro j x line h
    cases j with
    | zero =>
      obtain rfl : a = line := Option.some.inj (by simpa using h)
      simp only [List.set, List.flatten_cons, List.length_append]
      omega
    | succ j =>
      have hj := ih j x line (by simpa using h)
      simp only [List.set, List.flatten_cons, List.length_append]
      omega

/-- Unpacking a successful Python subscript read. -/
theorem pyGet?_eq (l : List α) (i : Int) (x : α) (h : pyGet? l i = some x) :
    ∃ j : Nat, pyResolve? l.length i = some j ∧ l.get? j = some x ∧
      ∀ y, pySetD l i y = l.set j y := by
  unfold pyGet? at h
  rcases hr : pyResolve? l.length i with _ | j <;> rw [hr] at h
  · exact absurd h (by simp)
  · exact ⟨j, rfl, h, fun y => by unfold pySetD pySet?; rw [hr]; rfl⟩

/-- C6 (amended): in every editable reachable `TextBox` state, Backspace
leaves the widget state unchanged iff the cursor is at `(row = 1,
col = 1)` - regardless of `firstVisibleLine`, contrary to the claimed
document-start condition - and in every other state it changes the state
(the cursor moves) while removing at most one character from the buffer
content (exactly one, or none when the column lies beyond the line end). -/
theorem C6_amended (height width : Int) (t : Str) (ek : Option Int) (s : TB)
    (hh : 3 ≤ height) (hw : 3 ≤ width)
    (hr : ReachTB (mkTextBox height width t ek) s) (hed : s.editable = true) :
    (removeChar s = some s ↔ s.cursorX = 1 ∧ s.cursorY = 1) ∧
    (∀ s', removeChar s = some s' → ¬(s.cursorX = 1 ∧ s.cursorY = 1) →
      s' ≠ s ∧ (s'.lines.flatten.length + 1 = s.lines.flatten.length ∨
                s'.lines.flatten.length = s.lines.flatten.length)) := by
  obtain ⟨h1, h2, h3, h4, h5, h6, h7, h8⟩ := tb_invariant hh hw hr
  have hb : ∀ s', removeChar s = some s' → ¬(s.cursorX = 1 ∧ s.cursorY = 1) →
      s' ≠ s ∧ (s'.lines.flatten.length + 1 = s.lines.flatten.length ∨
                s'.lines.flatten.length = s.lines.flatten.length) := by
    intro s' he hcc
    unfold removeChar at he
    rw [if_neg (by rw [hed]; simp), if_neg hcc] at he
    by_cases hcx : 1 < s.cursorX
    · rw [if_pos hcx] at he
      rcases hg : pyGet? s.lines (s.firstLineIdx + s.cursorY - 1) with _ | line <;>
        simp only [hg] at he
      · exact absurd he (by simp)
      · obtain ⟨j, hres, hget, hset⟩ := pyGet?_eq _ _ _ hg
        obtain rfl := Option.some.inj he
        constructor
        · intro heq
          have := congrArg TB.cursorX heq
          simp only [recompute] at this
          omega
        · have hlen := flatten_length_set s.lines j
            (pySlice line 0 (s.cursorX - 2) ++ pySlice line (s.cursorX - 1) (line.length : Int))
            line hget
          have hl1 := length_pySlice line 0 (s.cursorX - 2)
          have hl2 := length_pySlice line (s.cursorX - 1) (line.length : Int)
          have hi0 : pyIdx line.length 0 = 0 := by unfold pyIdx; simp
          have hi1 : pyIdx line.length (s.cursorX - 2) = min (s.cursorX - 2).toNat line.length := by
            unfold pyIdx
            rw [if_neg (by omega)]
          have hi2 : pyIdx line.length (s.cursorX - 1) = min (s.cursorX - 1).toNat line.length := by
            unfold pyIdx
            rw [if_neg (by omega)]
          have hi3 : pyIdx line.length (line.length : Int) = line.length := by
            unfold pyIdx
            rw [if_neg (by omega)]
            omega
          have hflat : (recompute { s with
              lines := pySetD s.lines (s.firstLineIdx + s.cursorY - 1)
                (pySlice line 0 (s.cursorX - 2) ++ pySlice line (s.cursorX - 1) (line.length : Int)),
              cursorX := s.cursorX - 1 }).lines.flatten =
              (s.lines.set j (pySlice line 0 (s.cursorX - 2) ++
                pySlice line (s.cursorX - 1) (line.length : Int))).flatten := by
            simp only [recompute]
            rw [hset]
            exact join_splitText s.boxWidth _ h2
          simp only [List.length_append] at hlen
          simp only at hflat ⊢
          rw [hflat]
          omega
    · have hcx1 : s.cursorX = 1 := by omega
      rw [if_neg hcx, if_pos hcx1] at he
      rcases hg : pyGet? s.lines (s.firstLineIdx + s.cursorY - 2) with _ | line <;>
        simp only [hg] at he
      · exact absurd he (by simp)
      · obtain ⟨j, hres, hget, hset⟩ := pyGet?_eq _ _ _ hg
        obtain rfl := Option.some.inj he
        constructor
        · intro heq
          have := congrArg TB.cursorX heq
          simp only [recompute] at this
          omega
        · have hlen := flatten_length_set s.lines j (pySlice line 0 (-1)) line hget
          have hl1 := length_pySlice line 0 (-1)
          have hi0 : pyIdx line.length 0 = 0 := by unfold pyIdx; simp
          have hi1 : pyIdx line.length (-1) = ((line.length : Int) - 1).toNat := by
            unfold pyIdx
            rw [if_pos (by omega)]
            omega
          have hflat : (recompute { s with
              lines := pySetD s.lines (s.firstLineIdx + s.cursorY - 2) (pySlice line 0 (-1)),
              cursorX := s.width, cursorY := s.cursorY - 1 }).lines.flatten =
              (s.lines.set j (pySlice line 0 (-1))).flatten := by
            simp only [recompute]
            rw [hset]
            exact join_splitText s.boxWidth _ h2
          simp only at hflat ⊢
          rw [hflat]
          omega
  refine ⟨⟨?_, ?_⟩, hb⟩
  · intro he
    by_contra hcc
    exact absurd rfl (hb s he hcc).1
  · intro hcc
    unfold removeChar
    rw [if_neg (by rw [hed]; simp), if_pos hcc]

end CursedWidgets
namespace CursedWidgets

/-- C5 (amended): in every `TextBox` state reachable from a well-formed
construction (window at least 3 x 3), `cursorY ∈ [1, boxHeight]` and
`1 ≤ cursorX` hold - but the claimed upper bound `cursorX ≤ boxWidth`
does not (see the C5 counterexample, where `cursorX` reaches
`boxWidth + 2` and can grow further under Arrow-Right). -/
theorem C5_amended (height width : Int) (t : Str) (ek : Option Int) (s : TB)
    (hh : 3 ≤ height) (hw : 3 ≤ width)
    (hr : ReachTB (mkTextBox height width t ek) s) :
    1 ≤ s.cursorY ∧ s.cursorY ≤ s.boxHeight ∧ 1 ≤ s.cursorX := by
  obtain ⟨_, _, _, h4, h5, h6, _, _⟩ := tb_invariant hh hw hr
  exact ⟨h4, h5, h6⟩

/-- Witness for the amended C5 at the freshly constructed 4 x 7 box. -/
theorem C5_amended_witness :
    (3 : Int) ≤ 4 ∧ (3 : Int) ≤ 7 ∧
    (1 ≤ (mkTextBox 4 7 [] none).cursorY ∧
     (mkTextBox 4 7 [] none).cursorY ≤ (mkTextBox 4 7 [] none).boxHeight ∧
     1 ≤ (mkTextBox 4 7 [] none).cursorX) :=
  ⟨by decide, by decide,
    C5_amended 4 7 [] none (mkTextBox 4 7 [] none) (by decide) (by decide) ReachTB.init⟩

/-- Witness for the amended C6 at the freshly constructed 4 x 7 box. -/
theorem C6_amended_witness :
    (3 : Int) ≤ 4 ∧ (3 : Int) ≤ 7 ∧ (mkTextBox 4 7 [] none).editable = true ∧
    ((removeChar (mkTextBox 4 7 [] none) = some (mkTextBox 4 7 [] none) ↔
        (mkTextBox 4 7 [] none).cursorX = 1 ∧ (mkTextBox 4 7 [] none).cursorY = 1) ∧
     (∀ s', removeChar (mkTextBox 4 7 [] none) = some s' →
        ¬((mkTextBox 4 7 [] none).cursorX = 1 ∧ (mkTextBox 4 7 [] none).cursorY = 1) →
        s' ≠ mkTextBox 4 7 [] none ∧
          (s'.lines.flatten.length + 1 = (mkTextBox 4 7 [] none).lines.flatten.length ∨
           s'.lines.flatten.length = (mkTextBox 4 7 [] none).lines.flatten.length))) :=
  ⟨by decide, by decide, by decide,
    C6_amended 4 7 [] none (mkTextBox 4 7 [] none) (by decide) (by decide)
      ReachTB.init (by decide)⟩

end CursedWidgets
namespace CursedWidgets

/-- Invariant of the `MenuSelector` state machine. -/
def MenuInv (m : Menu) : Prop :=
  0 ≤ m.selected ∧ m.selected ≤ (m.options.length : Int) - 1 ∧
  0 ≤ m.firstOptionIdx ∧ m.firstOptionIdx ≤ max 0 ((m.options.length : Int) - m.height)

/-- One `handle_input` step preserves the menu invariant. -/
theorem MenuInv_handleInput (m : Menu) (k : Int) (h : MenuInv m) :
    MenuInv (menuHandleInput m k).1 := by
  obtain ⟨h1, h2, h3, h4⟩ := h
  simp only [MenuInv, menuHandleInput, menuKeyUp, menuKeyDown]
  split_ifs <;> (try simp only) <;> refine ⟨?_, ?_, ?_, ?_⟩ <;> omega

/-- `handle_input` never changes the option list or the height. -/
theorem menuHandleInput_const (m : Menu) (k : Int) :
    (menuHandleInput m k).1.options = m.options ∧ (menuHandleInput m k).1.height = m.height := by
  simp only [menuHandleInput, menuKeyUp, menuKeyDown]
  split_ifs <;> simp

/-- C7: reachable-state invariant of `MenuSelector` with `n ≥ 1` options
and window height `height`: after construction and any sequence of
`handle_input` calls (in particular Up/Down/Enter), `selectedIndex ∈
[0, n-1]` and `firstVisibleIndex ∈ [0, max(0, n - height)]`. -/
theorem C7_menu_bounds (options : List Str) (height : Int) (horizontal : Bool) (m : Menu)
    (hn : 1 ≤ (options.length : Int))
    (hr : ReachMenu (mkMenu options height horizontal) m) :
    m.options = options ∧ m.height = height ∧
    (0 ≤ m.selected ∧ m.selected ≤ (options.length : Int) - 1) ∧
    (0 ≤ m.firstOptionIdx ∧ m.firstOptionIdx ≤ max 0 ((options.length : Int) - height)) := by
  have key : m.options = options ∧ m.height = height ∧ MenuInv m := by
    induction hr with
    | init =>
      refine ⟨rfl, rfl, ?_⟩
      simp only [MenuInv, mkMenu]
      omega
    | step k hprev ih =>
      obtain ⟨i1, i2, i3⟩ := ih
      obtain ⟨c1, c2⟩ := menuHandleInput_const _ k
      exact ⟨c1.trans i1, c2.trans i2, MenuInv_handleInput _ k i3⟩
  obtain ⟨k1, k2, k3, k4, k5, k6⟩ := key
  rw [k1] at k4 k6
  rw [k2] at k6
  exact ⟨k1, k2, ⟨k3, k4⟩, ⟨k5, k6⟩⟩

/-- Witness for C7: a fresh three-option selector of height 2. -/
theorem C7_menu_bounds_witness :
    (1 : Int) ≤ ([[65], [66], [67]] : List Str).length ∧
    ((mkMenu [[65], [66], [67]] 2 false).options = [[65], [66], [67]] ∧
     (mkMenu [[65], [66], [67]] 2 false).height = 2 ∧
     (0 ≤ (mkMenu [[65], [66], [67]] 2 false).selected ∧
      (mkMenu [[65], [66], [67]] 2 false).selected ≤ (([[65], [66], [67]] : List Str).length : Int) - 1) ∧
     (0 ≤ (mkMenu [[65], [66], [67]] 2 false).firstOptionIdx ∧
      (mkMenu [[65], [66], [67]] 2 false).firstOptionIdx ≤
        max 0 ((([[65], [66], [67]] : List Str).length : Int) - 2))) :=
  ⟨by decide, C7_menu_bounds [[65], [66], [67]] 2 false _ (by decide) ReachMenu.init⟩

/-- Invariant of the `InputField` buffers. -/
def FieldInv (f : Field) : Prop :=
  f.text.length = f.value.length ∧ (f.value.length : Int) ≤ f.maxLength

/-- One `handle_input` step preserves the field invariant. -/
theorem FieldInv_handleInput (f : Field) (k : Int) (h : FieldInv f) :
    FieldInv (fieldHandleInput f k) := by
  obtain ⟨h1, h2⟩ := h
  unfold FieldInv fieldHandleInput
  split_ifs with hc1 hpw hc2 <;> (try simp only)
  · obtain ⟨hpr, hlt⟩ := hc1
    refine ⟨?_, ?_⟩
    · simp only [List.length_append, List.length_cons, List.length_nil, h1]
    · simp only [List.length_append, List.length_cons, List.length_nil]
      push_cast
      omega
  · obtain ⟨hpr, hlt⟩ := hc1
    refine ⟨?_, ?_⟩
    · simp only [List.length_append, List.length_cons, List.length_nil, h1]
    · simp only [List.length_append, List.length_cons, List.length_nil]
      push_cast
      omega
  · have l1 := length_pySlice f.text 0 (-1)
    have l2 := length_pySlice f.value 0 (-1)
    have i0 : ∀ n : Nat, pyIdx n 0 = 0 := fun n => by unfold pyIdx; simp
    have i1 : ∀ n : Nat, pyIdx n (-1) = ((n : Int) - 1).toNat := fun n => by
      unfold pyIdx
      rw [if_pos (by omega)]
      omega
    rw [i0, i1] at l1
    rw [i0, i1] at l2
    refine ⟨?_, ?_⟩ <;> omega
  · exact ⟨h1, h2⟩

/-- C8: reachable-state invariant of `InputField`: after construction and
any sequence of `handle_input` calls, `len(trueValue) ≤ maxLength`, and a
printable key grows the true value by one character exactly when
`len(trueValue) < maxLength` (otherwise it is ignored). -/
theorem C8_inputfield_bound (pw ll sp ml : Int) (isP : Bool) (f : Field)
    (hr : ReachField (mkField pw ll sp ml isP) f) :
    (f.value.length : Int) ≤ f.maxLength ∧
    (∀ k, isKeyPrintable k = true →
      ((fieldHandleInput f k).value.length = f.value.length + 1 ↔
        (f.value.length : Int) < f.maxLength)) := by
  have key : FieldInv f := by
    induction hr with
    | init =>
      refine ⟨rfl, ?_⟩
      show (0 : Int) ≤ (mkField pw ll sp ml isP).maxLength
      simp only [mkField]
      split_ifs <;> omega
    | step k hprev ih => exact FieldInv_handleInput _ k ih
  obtain ⟨h1, h2⟩ := key
  refine ⟨h2, fun k hk => ?_⟩
  constructor
  · intro hgrow
    by_contra hge
    unfold fieldHandleInput at hgrow
    rw [if_neg (by rw [hk]; simp only [true_and]; omega)] at hgrow
    split_ifs at hgrow with hb
    · have l2 := length_pySlice f.value 0 (-1)
      have i0 : ∀ n : Nat, pyIdx n 0 = 0 := fun n => by unfold pyIdx; simp
      have i1 : ∀ n : Nat, pyIdx n (-1) = ((n : Int) - 1).toNat := fun n => by
        unfold pyIdx
        rw [if_pos (by omega)]
        omega
      rw [i0, i1] at l2
      simp only at hgrow
      omega
    · omega
  · intro hlt
    unfold fieldHandleInput
    rw [if_pos (by rw [hk]; simp only [true_and]; omega)]
    simp [List.length_append]

/-- Witness for C8: the `"Name:"` field of Scenario C (`maxLength = 3`). -/
theorem C8_inputfield_bound_witness :
    ((mkField 10 5 1 15 false).value.length : Int) ≤ (mkField 10 5 1 15 false).maxLength ∧
    (∀ k, isKeyPrintable k = true →
      ((fieldHandleInput (mkField 10 5 1 15 false) k).value.length =
          (mkField 10 5 1 15 false).value.length + 1 ↔
        ((mkField 10 5 1 15 false).value.length : Int) < (mkField 10 5 1 15 false).maxLength)) :=
  C8_inputfield_bound 10 5 1 15 false _ ReachField.init

end CursedWidgets
namespace CursedWidgets

/-- C9 fails on the code: `add_str_no_overflows` paints the first segment
at the caller's row without any bounds check, so painting at row 100 of a
5-row window emits an out-of-bounds `addstr`. -/
theorem C9_counterexample :
    (addStrNoOverflows 5 10 100 0 [65] 0 Align.left).1 = [{ row := 100, col := 1, seg := [65] }] ∧
    ¬ ((100 : Int) < 5) := by
  constructor
  · decide
  · decide

/-- A prefix slice of length at most `b ≥ 0`. -/
theorem length_pySlice_le (l : List α) (b : Int) (hb : 0 ≤ b) :
    ((pySlice l 0 b).length : Int) ≤ b := by
  rw [length_pySlice]
  unfold pyIdx
  rw [if_neg (by omega), if_neg (by omega)]
  simp only [Int.toNat_zero, Nat.zero_min]
  have : min b.toNat l.length ≤ b.toNat := Nat.min_le_left _ _
  omega

/-- Column bounds of one `add_str_align` call whose segment fits into the
available width. -/
theorem addStrAlign_col_bounds (cols line col : Int) (seg : Str) (align : Align)
    (hc : 2 ≤ cols)
    (hlen : (seg.length : Int) ≤ cols - 2 - (if align = Align.manual then col else 0))
    (hm : align = Align.manual → 0 ≤ col) :
    0 ≤ (addStrAlign cols line col seg align).col ∧
    (addStrAlign cols line col seg align).col + (seg.length : Int) ≤ cols - 1 := by
  cases align <;> simp only [addStrAlign] <;> simp only [reduceCtorEq, if_false, if_neg] at hlen
  · constructor <;> omega
  · have h1 := Int.fmod_add_fdiv (cols - (seg.length : Int)) 2
    have h2 : 0 ≤ (cols - (seg.length : Int)).fmod 2 := Int.fmod_nonneg (by omega) (by omega)
    have h3 : (cols - (seg.length : Int)).fmod 2 < 2 := Int.fmod_lt_of_pos _ (by omega)
    constructor <;> omega
  · constructor <;> omega
  · simp only [if_true] at hlen
    have := hm rfl
    constructor <;> omega

/-- The row of an `add_str_align` event is the requested row. -/
theorem addStrAlign_row (cols line col : Int) (seg : Str) (align : Align) :
    (addStrAlign cols line col seg align).row = line := by
  cases align <;> rfl

/-- The segment of an `add_str_align` event is the requested string. -/
theorem addStrAlign_seg (cols line col : Int) (seg : Str) (align : Align) :
    (addStrAlign cols line col seg align).seg = seg := by
  cases align <;> rfl

/-- Row and column bounds of every event emitted by the continuation loop
of `add_str_no_overflows`. -/
theorem paintLoop_bounds (rows cols avail col : Int) (align : Align)
    (hc : 2 ≤ cols) (havail : avail = cols - 2 - (if align = Align.manual then col else 0))
    (hm : align = Align.manual → 0 ≤ col ∧ col ≤ cols - 2) :
    ∀ (fuel : Nat) (s : Str) (line extraLines : Int), 0 ≤ line →
      ∀ ev ∈ (paintLoop rows cols avail col align fuel s line extraLines).1,
        (0 ≤ ev.col ∧ ev.col + (ev.seg.length : Int) ≤ cols - 1) ∧
        0 ≤ ev.row ∧ ev.row < rows := by
  have havail0 : 0 ≤ avail := by
    rcases align <;> simp only [reduceCtorEq, if_false, if_neg, if_pos] at havail <;>
      first
        | omega
        | (have h9 := hm rfl; omega)
  intro fuel
  induction fuel with
  | zero =>
    intro s line el _ ev hev
    simp [paintLoop] at hev
  | succ fuel ih =>
    intro s line el hline ev hev
    rw [paintLoop] at hev
    split_ifs at hev with h1 h2
    · simp at hev
    · rcases hpl : paintLoop rows cols avail col align fuel
          (pySlice s avail (s.length : Int)) (line + 1) (el - 1) with ⟨evs, line'⟩
      simp only [hpl, List.mem_cons] at hev
      rcases hev with rfl | hev
      · refine ⟨?_, ?_, ?_⟩
        · rw [addStrAlign_seg]
          refine addStrAlign_col_bounds cols (line + 1) col _ align hc ?_ (fun ha => (hm ha).1)
          have := length_pySlice_le (pySlice s avail (s.length : Int)) avail havail0
          omega
        · rw [addStrAlign_row]
          omega
        · rw [addStrAlign_row]
          omega
      · have := ih (pySlice s avail (s.length : Int)) (line + 1) (el - 1) (by omega) ev
          (by rw [hpl]; exact hev)
        exact this
    · simp at hev

/-- C9 (amended): for window width at least 2, a nonnegative start row,
and (for MANUAL alignment) a caller column within `[0, width - 2]`, every
segment painted by `add_str_no_overflows` lies within the window's
columns (start column `≥ 0` and start column plus segment length at most
the window width minus one), every painted row is nonnegative, and every row after
the first lies strictly below the window height.  (The first row is
painted unchecked - see the C9 counterexample.) -/
theorem C9_amended (rows cols line col extraLines : Int) (s : Str) (align : Align)
    (hc : 2 ≤ cols) (hl : 0 ≤ line)
    (hm : align = Align.manual → 0 ≤ col ∧ col ≤ cols - 2) :
    ∀ ev ∈ (addStrNoOverflows rows cols line col s extraLines align).1,
      (0 ≤ ev.col ∧ ev.col + (ev.seg.length : Int) ≤ cols - 1) ∧
      0 ≤ ev.row ∧ (ev.row = line ∨ ev.row < rows) := by
  intro ev hev
  have havail0 : 0 ≤ cols - 2 - (if align = Align.manual then col else 0) := by
    rcases align <;> simp only [reduceCtorEq, if_false, if_neg, if_pos] <;>
      first
        | omega
        | (have h9 := hm rfl; omega)
  simp only [addStrNoOverflows] at hev
  rcases hpl : paintLoop rows cols (cols - 2 - (if align = Align.manual then col else 0)) col
      align extraLines.toNat s line extraLines with ⟨evs, line'⟩
  simp only [hpl, List.mem_cons] at hev
  rcases hev with rfl | hev
  · refine ⟨?_, ?_, ?_⟩
    · rw [addStrAlign_seg]
      refine addStrAlign_col_bounds cols line col _ align hc ?_ (fun ha => (hm ha).1)
      have := length_pySlice_le s (cols - 2 - (if align = Align.manual then col else 0)) havail0
      omega
    · rw [addStrAlign_row]
      exact hl
    · rw [addStrAlign_row]
      exact Or.inl rfl
  · have := paintLoop_bounds rows cols _ col align hc rfl hm extraLines.toNat s line
      extraLines hl ev (by rw [hpl]; exact hev)
    exact ⟨this.1, this.2.1, Or.inr this.2.2⟩

/-- Witness for the amended C9: a 20-character string painted LEFT into a
5 x 10 window from row 1 with three continuation lines. -/
theorem C9_amended_witness :
    (2 : Int) ≤ 10 ∧ (0 : Int) ≤ 1 ∧
    (∀ ev ∈ (addStrNoOverflows 5 10 1 0
        [65, 65, 65, 65, 65, 65, 65, 65, 65, 65, 65, 65, 65, 65, 65, 65, 65, 65, 65, 65]
        3 Align.left).1,
      (0 ≤ ev.col ∧ ev.col + (ev.seg.length : Int) ≤ 10 - 1) ∧
      0 ≤ ev.row ∧ (ev.row = 1 ∨ ev.row < 5)) :=
  ⟨by decide, by decide,
    C9_amended 5 10 1 0 3
      [65, 65, 65, 65, 65, 65, 65, 65, 65, 65, 65, 65, 65, 65, 65, 65, 65, 65, 65, 65]
      Align.left (by decide) (by decide) (by intro h; cases h)⟩

end CursedWidgets
namespace CursedWidgets

/-- A menu selection is reported only on Enter, and it is the selected
index. -/
theorem menuHandleInput_selection (m : Menu) (k v : Int)
    (h : (menuHandleInput m k).2 = some v) : k = KEY_ENTER ∧ v = m.selected := by
  by_cases hk : k = KEY_ENTER
  · refine ⟨hk, ?_⟩
    subst hk
    simp only [menuHandleInput] at h
    rw [if_neg (by decide : ¬(KEY_ENTER = KEY_UP)), if_neg (by decide : ¬(KEY_ENTER = KEY_DOWN)),
      if_neg (fun hc => absurd hc.1 (by decide)),
      if_neg (fun hc => absurd hc.1 (by decide))] at h
    simp only [if_true] at h
    exact (Option.some.inj h).symm
  · exfalso
    simp only [menuHandleInput] at h
    split_ifs at h

/-- C10: `InputField.handle_input` and `TextBox.handle_input` always
return `None` (their dispatch never carries a selection), so
`WidgetManager.run` can return only by dispatching Enter to a focused
`MenuSelector`: whenever `runMgr` returns `(i, v)`, the loop reached (via
Tab rotations and selection-less dispatches) a configuration whose active
widget is a menu `m` with Enter as the next key, and `i` is that
configuration's active index while `v = m.selected`. -/
theorem C10_run_terminates_only_menu_enter :
    ∀ (keys : List Int) (c : Mgr) (i v : Int), runMgr c keys = some (i, v) →
      ∃ c2 rest m, Relation.ReflTransGen MgrStep (c, keys) (c2, KEY_ENTER :: rest) ∧
        pyGet? c2.widgets c2.active = some (Widget.menu m) ∧
        i = c2.active ∧ v = m.selected := by
  intro keys
  induction keys with
  | nil =>
    intro c i v h
    simp [runMgr] at h
  | cons k ks ih =>
    intro c i v h
    simp only [runMgr] at h
    by_cases htab : k = KEY_TAB
    · rw [if_pos htab] at h
      by_cases hlen : (c.widgets.length : Int) = 0
      · rw [if_pos hlen] at h
        exact absurd h (by simp)
      · rw [if_neg hlen] at h
        obtain ⟨c2, rest, m, hsteps, hget, hi, hv⟩ :=
          ih { c with active := (c.active + 1) % (c.widgets.length : Int) } i v h
        subst htab
        exact ⟨c2, rest, m, Relation.ReflTransGen.head (MgrStep.tab hlen) hsteps, hget, hi, hv⟩
    · rw [if_neg htab] at h
      rcases hw : pyGet? c.widgets c.active with _ | w <;> simp only [hw] at h
      · exact absurd h (by simp)
      · rcases hh : widgetHandle w k with _ | wr <;> simp only [hh] at h
        · exact absurd h (by simp)
        · rcases wr with ⟨w', r⟩
          rcases r with _ | v'
          · simp only at h
            obtain ⟨c2, rest, m, hsteps, hget, hi, hv⟩ :=
              ih { c with widgets := pySetD c.widgets c.active w' } i v h
            exact ⟨c2, rest, m,
              Relation.ReflTransGen.head (MgrStep.dispatch htab hw hh) hsteps, hget, hi, hv⟩
          · simp only at h
            have hpair := Option.some.inj h
            have hi : i = c.active := (congrArg Prod.fst hpair).symm
            have hv : v = v' := (congrArg Prod.snd hpair).symm
            cases w with
            | field f =>
              have := congrArg Prod.snd (Option.some.inj hh)
              exact absurd this (by simp)
            | text t =>
              simp only [widgetHandle] at hh
              rcases hti : handleInput t k with _ | t' <;> rw [hti] at hh
              · exact absurd hh (by simp)
              · simp only [Option.map_some'] at hh
                have := congrArg Prod.snd (Option.some.inj hh)
                exact absurd this (by simp)
            | menu m =>
              simp only [widgetHandle] at hh
              have hsel : (menuHandleInput m k).2 = some v' :=
                congrArg Prod.snd (Option.some.inj hh)
              obtain ⟨hk, hveq⟩ := menuHandleInput_selection m k v' hsel
              subst hk
              exact ⟨c, ks, m, Relation.ReflTransGen.refl, hw, hi, hv.trans hveq⟩

/-- Witness for C10: one menu widget, a single Enter key. -/
theorem C10_run_terminates_only_menu_enter_witness :
    runMgr { widgets := [Widget.menu (mkMenu [[65], [66]] 2 false)], active := 0 }
        [KEY_ENTER] = some (0, 0) ∧
    ∃ c2 rest m, Relation.ReflTransGen MgrStep
        ({ widgets := [Widget.menu (mkMenu [[65], [66]] 2 false)], active := 0 }, [KEY_ENTER])
        (c2, KEY_ENTER :: rest) ∧
      pyGet? c2.widgets c2.active = some (Widget.menu m) ∧
      (0 : Int) = c2.active ∧ (0 : Int) = m.selected :=
  ⟨by decide,
    C10_run_terminates_only_menu_enter [KEY_ENTER]
      { widgets := [Widget.menu (mkMenu [[65], [66]] 2 false)], active := 0 } 0 0 (by decide)⟩

end CursedWidgets
namespace CursedWidgets

/-- `l[0:b]` is a plain `take` when `0 ≤ b` and `b` is within bounds. -/
theorem pySlice_take (l : List α) (b : Int) (h0 : 0 ≤ b) (hb : b.toNat ≤ l.length) :
    pySlice l 0 b = l.take b.toNat := by
  unfold pySlice pyIdx
  rw [if_neg (by omega), if_neg (by omega)]
  simp only [Int.toNat_zero, Nat.zero_min, List.drop_zero, Nat.sub_zero]
  congr 1
  omega

/-- `l[a:len(l)]` is a plain `drop` when `0 ≤ a`. -/
theorem pySlice_drop (l : List α) (a : Int) (h0 : 0 ≤ a) :
    pySlice l a (l.length : Int) = l.drop a.toNat := by
  unfold pySlice pyIdx
  rw [if_neg (by omega), if_neg (by omega)]
  simp only [Int.toNat_natCast, Nat.min_self]
  rcases le_total a.toNat l.length with hle | hle
  · rw [min_eq_left hle]
    exact List.take_of_length_le (by rw [List.length_drop])
  · rw [min_eq_right hle, Nat.sub_self, List.take_zero]
    exact (List.drop_eq_nil_of_le hle).symm

/-- Reading index 0 of a nonempty Python list. -/
theorem pyGet?_zero (a : α) (l : List α) : pyGet? (a :: l) 0 = some a := by
  unfold pyGet? pyResolve?
  rw [if_pos le_rfl, if_pos (by simp only [List.length_cons]; omega)]
  rfl

/-- Writing index 0 of a nonempty Python list. -/
theorem pySetD_zero (a x : α) (l : List α) : pySetD (a :: l) 0 x = x :: l := by
  unfold pySetD pySet? pyResolve?
  rw [if_pos le_rfl, if_pos (by simp only [List.length_cons]; omega)]
  rfl

/-- The reflowed line list starts with the first `w` characters, and the
remaining lines flatten to the rest of the text. -/
theorem splitText_cons (w : Int) (hw : 1 ≤ w) (t : Str) :
    ∃ rest, splitText w t = t.take w.toNat :: rest ∧ rest.flatten = t.drop w.toNat := by
  have hjoin := join_splitText w t hw
  simp only [splitText]
  simp only [splitText] at hjoin
  have hmod := Int.fmod_add_fdiv ((t.length : Int) + w + 1) w
  have hmn : 0 ≤ ((t.length : Int) + w + 1).fmod w := Int.fmod_nonneg (by omega) (by omega)
  have hml : ((t.length : Int) + w + 1).fmod w < w := Int.fmod_lt_of_pos _ (by omega)
  set q : Int := ((t.length : Int) + w + 1).fdiv w with hq
  have hqw : (t.length : Int) + 2 ≤ w * q := by omega
  have hq1 : 1 ≤ q := by nlinarith
  obtain ⟨m, hm⟩ : ∃ m, q.toNat = m + 1 := ⟨q.toNat - 1, by omega⟩
  rw [hm] at hjoin ⊢
  rw [List.range_succ_eq_map, List.map_cons] at hjoin ⊢
  have hhead : pySlice t (((0 : Nat) : Int) * w) ((((0 : Nat) : Int) + 1) * w) = t.take w.toNat := by
    rw [pySlice_chunk t 0 w (by omega)]
    simp
  have hne : (pySlice t (((0 : Nat) : Int) * w) ((((0 : Nat) : Int) + 1) * w) ::
      List.map ((fun (i : Nat) => pySlice t ((i : Int) * w) (((i : Int) + 1) * w)) ∘ Nat.succ)
        (List.range m)) ≠ [] := by simp
  rw [if_neg (by simp)] at hjoin ⊢
  refine ⟨_, by rw [hhead], ?_⟩
  rw [List.flatten_cons, hhead] at hjoin
  have := List.append_cancel_left (hjoin.trans (List.take_append_drop w.toNat t).symm)
  exact this

end CursedWidgets
namespace CursedWidgets

/-- Backspace dispatches to `_remove_char`. -/
theorem handleInput_backspace (s : TB) : handleInput s KEY_BACKSPACE = removeChar s := by
  unfold handleInput
  rw [if_neg (by decide), if_neg (by decide), if_neg (by decide), if_neg (by decide),
    if_pos rfl]

/-- `_remove_char` in an editable state with the cursor strictly right of
column 1: in-line deletion, cursor one column left, then reflow. -/
theorem removeChar_mid (s : TB) (line : Str) (hed : s.editable = true)
    (hcx : 1 < s.cursorX)
    (hg : pyGet? s.lines (s.firstLineIdx + s.cursorY - 1) = some line) :
    removeChar s = some { recompute { s with
        lines := pySetD s.lines (s.firstLineIdx + s.cursorY - 1)
          (pySlice line 0 (s.cursorX - 2) ++ pySlice line (s.cursorX - 1) (line.length : Int)),
        cursorX := s.cursorX - 1 } with edited := true } := by
  unfold removeChar
  rw [if_neg (by simp [hed]), if_neg (by rintro ⟨h9, -⟩; omega), if_pos hcx, hg]

/-- C3 (amended): in every editable reachable `TextBox` state whose
cursor sits on the first buffer line (`firstVisibleLine = 0`,
`cursorY = 1`) within the line's content (`cursorX - 1 ≤` line length)
and away from the right edge (`cursorX < boxWidth`), inserting one
printable character and then immediately sending Backspace restores both
the buffer content and the cursor position. -/
theorem C3_amended (height width : Int) (t : Str) (ek : Option Int) (s : TB) (c : Int)
    (hh : 3 ≤ height) (hw : 3 ≤ width)
    (hr : ReachTB (mkTextBox height width t ek) s)
    (hed : s.editable = true) (hc : isKeyPrintable c = true)
    (hfl : s.firstLineIdx = 0) (hcy : s.cursorY = 1)
    (hcx : s.cursorX < s.boxWidth)
    (hin : ∀ line0 ∈ s.lines.head?, s.cursorX - 1 ≤ (line0.length : Int)) :
    ∃ s1 s2, handleInput s c = some s1 ∧ handleInput s1 KEY_BACKSPACE = some s2 ∧
      s2.lines.flatten = s.lines.flatten ∧ s2.cursorX = s.cursorX ∧
      s2.cursorY = s.cursorY ∧ s2.firstLineIdx = s.firstLineIdx := by
  obtain ⟨h1, h2, h3, h4, h5, h6, h7, h8⟩ := tb_invariant hh hw hr
  obtain ⟨rest, hcons, hrest⟩ := splitText_cons s.boxWidth h2 s.lines.flatten
  have hL : s.lines = s.lines.flatten.take s.boxWidth.toNat :: rest := h8.trans hcons
  have hp0 : 0 ≤ s.cursorX - 1 := by omega
  have hinL : s.cursorX - 1 ≤ ((s.lines.flatten.take s.boxWidth.toNat).length : Int) := by
    apply hin
    have hhd : s.lines.head? = some (s.lines.flatten.take s.boxWidth.toNat) := by
      conv_lhs => rw [hL]
      rfl
    rw [hhd]
    rfl
  have hlenL : (s.lines.flatten.take s.boxWidth.toNat).length =
      min s.boxWidth.toNat s.lines.flatten.length := List.length_take _ _
  have hpW : (s.cursorX - 1).toNat < s.boxWidth.toNat := by omega
  have hpL : (s.cursorX - 1).toNat ≤ (s.lines.flatten.take s.boxWidth.toNat).length := by omega
  have hpT : (s.cursorX - 1).toNat ≤ s.lines.flatten.length := by omega
  have hgetL : pyGet? s.lines (s.firstLineIdx + s.cursorY - 1) =
      some (s.lines.flatten.take s.boxWidth.toNat) := by
    conv_lhs => rw [hfl, hcy, hL]
    rw [show (0 : Int) + 1 - 1 = 0 from by norm_num, pyGet?_zero]
  have hset : ∀ x : Str, pySetD s.lines 0 x = x :: rest := by
    intro x
    conv_lhs => rw [hL]
    rw [pySetD_zero]
  have hflat : ∀ x : Str,
      (pySetD s.lines 0 x).flatten = x ++ s.lines.flatten.drop s.boxWidth.toNat := by
    intro x
    rw [hset, List.flatten_cons, hrest]
  -- the reflowed text after insertion
  have hT1 : ((s.lines.flatten.take s.boxWidth.toNat).take (s.cursorX - 1).toNat ++
        c :: (s.lines.flatten.take s.boxWidth.toNat).drop (s.cursorX - 1).toNat) ++
        s.lines.flatten.drop s.boxWidth.toNat =
      s.lines.flatten.take (s.cursorX - 1).toNat ++
        c :: s.lines.flatten.drop (s.cursorX - 1).toNat := by
    rw [List.take_take, min_eq_left (le_of_lt hpW), List.drop_take]
    conv_lhs =>
      rw [show s.lines.flatten.drop s.boxWidth.toNat =
        (s.lines.flatten.drop (s.cursorX - 1).toNat).drop
          (s.boxWidth.toNat - (s.cursorX - 1).toNat) from by
        rw [List.drop_drop]
        congr 1
        omega]
    simp only [List.cons_append, List.append_assoc]
    rw [List.take_append_drop]
  have e1 : handleInput s c = some { s with
      lines := splitText s.boxWidth (s.lines.flatten.take (s.cursorX - 1).toNat ++
        c :: s.lines.flatten.drop (s.cursorX - 1).toNat),
      cursorX := s.cursorX + 1, edited := true } := by
    rw [handleInput_isPrintable s c hc, addChar_no_wrap s c hed hcx, hgetL]
    simp only [Option.map_some']
    congr 1
    simp only [recompute]
    rw [pySlice_take _ _ hp0 hpL, pySlice_drop _ _ hp0]
    rw [hfl, hcy, show (0 : Int) + 1 - 1 = 0 from by norm_num]
    rw [hflat, hT1]
  obtain ⟨rest1, hcons1, hrest1⟩ := splitText_cons s.boxWidth h2
    (s.lines.flatten.take (s.cursorX - 1).toNat ++ c :: s.lines.flatten.drop (s.cursorX - 1).toNat)
  have hset1 : ∀ x : Str, pySetD (splitText s.boxWidth
      (s.lines.flatten.take (s.cursorX - 1).toNat ++
        c :: s.lines.flatten.drop (s.cursorX - 1).toNat)) 0 x = x :: rest1 := by
    intro x
    rw [hcons1, pySetD_zero]
  have hflat1 : ∀ x : Str, (pySetD (splitText s.boxWidth
      (s.lines.flatten.take (s.cursorX - 1).toNat ++
        c :: s.lines.flatten.drop (s.cursorX - 1).toNat)) 0 x).flatten =
      x ++ (s.lines.flatten.take (s.cursorX - 1).toNat ++
        c :: s.lines.flatten.drop (s.cursorX - 1).toNat).drop s.boxWidth.toNat := by
    intro x
    rw [hset1, List.flatten_cons, hrest1]
  have hT1len : (s.lines.flatten.take (s.cursorX - 1).toNat ++
      c :: s.lines.flatten.drop (s.cursorX - 1).toNat).length = s.lines.flatten.length + 1 := by
    simp only [List.length_append, List.length_cons, List.length_take, List.length_drop]
    omega
  have hpL1 : (s.cursorX - 1).toNat ≤ ((s.lines.flatten.take (s.cursorX - 1).toNat ++
      c :: s.lines.flatten.drop (s.cursorX - 1).toNat).take s.boxWidth.toNat).length := by
    rw [List.length_take, hT1len]
    apply le_min <;> omega
  have hAlen : (s.lines.flatten.take (s.cursorX - 1).toNat).length = (s.cursorX - 1).toNat := by
    rw [List.length_take]
    omega
  have htake1 : (s.lines.flatten.take (s.cursorX - 1).toNat ++
      c :: s.lines.flatten.drop (s.cursorX - 1).toNat).take (s.cursorX - 1).toNat =
      s.lines.flatten.take (s.cursorX - 1).toNat := List.take_left' hAlen
  have hdrop1 : (s.lines.flatten.take (s.cursorX - 1).toNat ++
      c :: s.lines.flatten.drop (s.cursorX - 1).toNat).drop ((s.cursorX - 1).toNat + 1) =
      s.lines.flatten.drop (s.cursorX - 1).toNat := by
    have hstep : (s.lines.flatten.take (s.cursorX - 1).toNat ++
        c :: s.lines.flatten.drop (s.cursorX - 1).toNat).drop ((s.cursorX - 1).toNat + 1) =
        ((s.lines.flatten.take (s.cursorX - 1).toNat ++
          c :: s.lines.flatten.drop (s.cursorX - 1).toNat).drop (s.cursorX - 1).toNat).drop 1 := by
      rw [List.drop_drop]
    rw [hstep, List.drop_left' hAlen]
    rfl
  have hT2 : (((s.lines.flatten.take (s.cursorX - 1).toNat ++
        c :: s.lines.flatten.drop (s.cursorX - 1).toNat).take s.boxWidth.toNat).take
          (s.cursorX - 1).toNat ++
      ((s.lines.flatten.take (s.cursorX - 1).toNat ++
        c :: s.lines.flatten.drop (s.cursorX - 1).toNat).take s.boxWidth.toNat).drop
          ((s.cursorX - 1).toNat + 1)) ++
      (s.lines.flatten.take (s.cursorX - 1).toNat ++
        c :: s.lines.flatten.drop (s.cursorX - 1).toNat).drop s.boxWidth.toNat =
      s.lines.flatten := by
    rw [List.take_take, min_eq_left (le_of_lt hpW), List.drop_take]
    rw [show (s.lines.flatten.take (s.cursorX - 1).toNat ++
        c :: s.lines.flatten.drop (s.cursorX - 1).toNat).drop s.boxWidth.toNat =
      ((s.lines.flatten.take (s.cursorX - 1).toNat ++
        c :: s.lines.flatten.drop (s.cursorX - 1).toNat).drop
          ((s.cursorX - 1).toNat + 1)).drop (s.boxWidth.toNat - ((s.cursorX - 1).toNat + 1)) from by
      rw [List.drop_drop]
      congr 1
      omega]
    simp only [List.append_assoc]
    rw [List.take_append_drop, htake1, hdrop1, List.take_append_drop]
  have hL1len1 : 1 < ({ s with
      lines := splitText s.boxWidth (s.lines.flatten.take (s.cursorX - 1).toNat ++
        c :: s.lines.flatten.drop (s.cursorX - 1).toNat),
      cursorX := s.cursorX + 1, edited := true } : TB).cursorX := by
    show 1 < s.cursorX + 1
    omega
  have hg1 : pyGet? (splitText s.boxWidth (s.lines.flatten.take (s.cursorX - 1).toNat ++
      c :: s.lines.flatten.drop (s.cursorX - 1).toNat)) (s.firstLineIdx + s.cursorY - 1) =
      some ((s.lines.flatten.take (s.cursorX - 1).toNat ++
        c :: s.lines.flatten.drop (s.cursorX - 1).toNat).take s.boxWidth.toNat) := by
    conv_lhs => rw [hfl, hcy, hcons1]
    rw [show (0 : Int) + 1 - 1 = 0 from by norm_num, pyGet?_zero]
  have e2 : removeChar { s with
      lines := splitText s.boxWidth (s.lines.flatten.take (s.cursorX - 1).toNat ++
        c :: s.lines.flatten.drop (s.cursorX - 1).toNat),
      cursorX := s.cursorX + 1, edited := true } =
      some { s with lines := s.lines, cursorX := s.cursorX + 1 - 1, edited := true } := by
    rw [removeChar_mid { s with
        lines := splitText s.boxWidth (s.lines.flatten.take (s.cursorX - 1).toNat ++
          c :: s.lines.flatten.drop (s.cursorX - 1).toNat),
        cursorX := s.cursorX + 1, edited := true }
      ((s.lines.flatten.take (s.cursorX - 1).toNat ++
        c :: s.lines.flatten.drop (s.cursorX - 1).toNat).take s.boxWidth.toNat)
      (by exact hed) hL1len1 (by exact hg1)]
    congr 1
    simp only [recompute]
    rw [show s.cursorX + 1 - 2 = s.cursorX - 1 from by ring,
      show s.cursorX + 1 - 1 = s.cursorX from by ring]
    rw [pySlice_take _ _ hp0 hpL1, pySlice_drop _ _ (by omega : (0 : Int) ≤ s.cursorX)]
    rw [show s.cursorX.toNat = (s.cursorX - 1).toNat + 1 from by omega]
    rw [hfl, hcy, show (0 : Int) + 1 - 1 = 0 from by norm_num]
    rw [hflat1, hT2, ← h8]
  refine ⟨_, { s with lines := s.lines, cursorX := s.cursorX + 1 - 1, edited := true },
    e1, ?_, ?_, ?_, ?_, ?_⟩
  · rw [handleInput_backspace]
    exact e2
  · rfl
  · show s.cursorX + 1 - 1 = s.cursorX
    omega
  · rfl
  · rfl

/-- Witness for C3 (amended): on a fresh empty 4x7 `TextBox`, typing `H`
then Backspace restores the empty buffer and the home cursor. -/
theorem C3_amended_witness :
    ∃ s1 s2, handleInput (mkTextBox 4 7 [] none) 72 = some s1 ∧
      handleInput s1 KEY_BACKSPACE = some s2 ∧
      s2.lines.flatten = (mkTextBox 4 7 [] none).lines.flatten ∧
      s2.cursorX = (mkTextBox 4 7 [] none).cursorX ∧
      s2.cursorY = (mkTextBox 4 7 [] none).cursorY ∧
      s2.firstLineIdx = (mkTextBox 4 7 [] none).firstLineIdx :=
  C3_amended 4 7 [] none (mkTextBox 4 7 [] none) 72 (by decide) (by decide)
    ReachTB.init (by decide) (by decide) (by decide) (by decide) (by decide)
    (by
      intro l hl
      cases hl
      decide)

end CursedWidgets
